import Mathlib

/-!
# Text-analysis demo client (`main.go`)

A shallow embedding of the program: the remote service is an explicit state
machine (`Client`), standard output is a list of `Event`s (one `print` per call
of `fmt.Println` / `fmt.Printf`, one `call` per request handed to the client),
and a Go run-time panic is recorded by the flag `Res.aborted`.

Conventions of the embedding.
* A Go `string` is a sequence of bytes (`GoString`); string literals of the
  source are their UTF-8 encoding (`utf8`).
* A "line" of output is what one print statement writes.
* `float32` scores are modelled exactly (`F32`): multiplication by `100` rounds
  to nearest-even, `%.2f` rounds the exact value half-to-even at two decimals.
* A pointer field of a response structure is an `Option`: `none` is the nil
  pointer, and dereferencing it panics, as does slicing the text with offsets
  that are out of range.
-/

namespace Comprehend

/-! ## Strings -/

/-- A Go string is a read-only sequence of bytes. -/
abbrev GoString := List UInt8

/-- The bytes of a source-level string: its UTF-8 encoding. -/
def utf8 (s : String) : GoString := s.data.flatMap String.utf8EncodeChar

/-- Go `fmt.Println(s)` writes `s` followed by a newline. -/
def Println (s : GoString) : GoString := s ++ utf8 "\n"

/-- The verb `%d` applied to an integer. -/
def fmtInt (n : Int) : GoString := utf8 (toString n)

/-- The slice expression `s[lo:hi]` of a Go string: the bytes at positions
`lo`, ..., `hi - 1`; it panics (`none`) unless `0 <= lo <= hi <= len(s)`. -/
def slice (s : GoString) (lo hi : Int) : Option GoString :=
  if 0 ≤ lo ∧ lo ≤ hi ∧ hi ≤ (s.length : Int) then
    some ((s.drop lo.toNat).take (hi.toNat - lo.toNat))
  else none

/-! ## float32 and the verb `%.2f` -/

/-- A `float32` value: not-a-number, an infinity, or the finite value
`(-1)^neg * mant * 2^exp`. -/
inductive F32 where
  | nan
  | inf (neg : Bool)
  | fin (neg : Bool) (mant : Nat) (exp : Int)
  deriving DecidableEq, Repr

/-- Nearest integer to `n / d`, ties to the even one. -/
def roundHalfEven (n d : Nat) : Nat :=
  let q := n / d
  let r := n % d
  if 2 * r < d then q
  else if d < 2 * r then q + 1
  else if q % 2 = 0 then q else q + 1

/-- The fraction `(n / d) * 2^e` as numerator and denominator. -/
def scaled (n d : Nat) (e : Int) : Nat × Nat :=
  if 0 ≤ e then (n * 2 ^ e.toNat, d) else (n, d * 2 ^ (-e).toNat)

/-- Floor of the binary logarithm of `n` by repeated halving (`0` for `n < 2`);
the first argument bounds the number of halvings. -/
def log2Aux : Nat → Nat → Nat
  | 0, _ => 0
  | fuel + 1, n => if 2 ≤ n then log2Aux fuel (n / 2) + 1 else 0

/-- Floor of the binary logarithm of `n` (`0` for `n < 2`). -/
def log2 (n : Nat) : Nat := log2Aux n n

/-- Rounding of the rational `n / d` (`d > 0`) to `float32`, round-to-nearest-even:
24 significant bits, least exponent `-149`, overflow to infinity from `2^128`. -/
def F32.round (neg : Bool) (n d : Nat) : F32 :=
  if n = 0 then .fin neg 0 0
  else
    let k : Int := (log2 n : Int) - (log2 d : Int)
    let ab := scaled n d (-k)
    -- floor of the binary logarithm of n / d
    let fl : Int := if ab.2 ≤ ab.1 then k else k - 1
    let e : Int := max (fl - 23) (-149)
    let cd := scaled n d (-e)
    let m := roundHalfEven cd.1 cd.2
    -- m * 2^e reaches 2^128
    if 104 < e ∨ (e = 104 ∧ 2 ^ 24 ≤ m) then .inf neg else .fin neg m e

/-- The float32 product `x * 100`. -/
def F32.mul100 : F32 → F32
  | .nan => .nan
  | .inf neg => .inf neg
  | .fin neg m e =>
    let nd := scaled (m * 100) 1 e
    F32.round neg nd.1 nd.2

/-- Two decimal digits of a number below one hundred. -/
def twoDigits (n : Nat) : GoString :=
  utf8 (toString (n / 10)) ++ utf8 (toString (n % 10))

/-- The verb `%.2f` applied to a float32: the exact value rounded at two
decimals (half to even), with `-` for a negative sign bit. -/
def F32.format2 : F32 → GoString
  | .nan => utf8 "NaN"
  | .inf false => utf8 "+Inf"
  | .inf true => utf8 "-Inf"
  | .fin neg m e =>
    let nd := scaled (m * 100) 1 e
    let c := roundHalfEven nd.1 nd.2
    (if neg then utf8 "-" else []) ++ utf8 (toString (c / 100)) ++ utf8 "." ++ twoDigits (c % 100)

/-- The format `%.2f%%` applied to `score*100`. -/
def pct (score : F32) : GoString := score.mul100.format2 ++ utf8 "%"

/-! ## Requests and responses of the service client -/

/-- The constant `types.LanguageCodeEn` of the client library: the code of English. -/
def LanguageCodeEn : GoString := utf8 "en"

structure DetectDominantLanguageInput where
  Text : GoString
  deriving DecidableEq, Repr

structure DetectSentimentInput where
  Text : GoString
  LanguageCode : GoString
  deriving DecidableEq, Repr

structure DetectEntitiesInput where
  Text : GoString
  LanguageCode : GoString
  deriving DecidableEq, Repr

structure DetectKeyPhrasesInput where
  Text : GoString
  LanguageCode : GoString
  deriving DecidableEq, Repr

structure DetectPiiEntitiesInput where
  Text : GoString
  LanguageCode : GoString
  deriving DecidableEq, Repr

structure DetectSyntaxInput where
  Text : GoString
  LanguageCode : GoString
  deriving DecidableEq, Repr

structure DominantLanguage where
  LanguageCode : Option GoString
  Score : Option F32
  deriving DecidableEq, Repr

structure DetectDominantLanguageOutput where
  Languages : List DominantLanguage
  deriving DecidableEq, Repr

structure SentimentScore where
  Mixed : Option F32
  Negative : Option F32
  Neutral : Option F32
  Positive : Option F32
  deriving DecidableEq, Repr

structure DetectSentimentOutput where
  Sentiment : GoString
  SentimentScore : Option SentimentScore
  deriving DecidableEq, Repr

structure Entity where
  Type_ : GoString
  Text : Option GoString
  Score : Option F32
  deriving DecidableEq, Repr

structure DetectEntitiesOutput where
  Entities : List Entity
  deriving DecidableEq, Repr

structure KeyPhrase where
  Text : Option GoString
  Score : Option F32
  deriving DecidableEq, Repr

structure DetectKeyPhrasesOutput where
  KeyPhrases : List KeyPhrase
  deriving DecidableEq, Repr

structure PiiEntity where
  Type_ : GoString
  BeginOffset : Option Int
  EndOffset : Option Int
  Score : Option F32
  deriving DecidableEq, Repr

structure DetectPiiEntitiesOutput where
  Entities : List PiiEntity
  deriving DecidableEq, Repr

/-- The tag of a part of speech (`token.PartOfSpeech.Tag`). -/
structure PartOfSpeechTag where
  Tag : GoString
  deriving DecidableEq, Repr

structure SyntaxToken where
  Text : Option GoString
  PartOfSpeech : Option PartOfSpeechTag
  deriving DecidableEq, Repr

structure DetectSyntaxOutput where
  SyntaxTokens : List SyntaxToken
  deriving DecidableEq, Repr

/-- A request handed to the client: the operation and its input. -/
inductive Request where
  | DetectDominantLanguage (input : DetectDominantLanguageInput)
  | DetectSentiment (input : DetectSentimentInput)
  | DetectEntities (input : DetectEntitiesInput)
  | DetectKeyPhrases (input : DetectKeyPhrasesInput)
  | DetectPiiEntities (input : DetectPiiEntitiesInput)
  | DetectSyntax (input : DetectSyntaxInput)
  deriving DecidableEq, Repr

/-- The six operations. -/
inductive Op where
  | language
  | sentiment
  | entities
  | keyPhrases
  | pii
  | syntaxTokens
  deriving DecidableEq, Repr

def Request.op : Request → Op
  | .DetectDominantLanguage _ => .language
  | .DetectSentiment _ => .sentiment
  | .DetectEntities _ => .entities
  | .DetectKeyPhrases _ => .keyPhrases
  | .DetectPiiEntities _ => .pii
  | .DetectSyntax _ => .syntaxTokens

def Request.Text : Request → GoString
  | .DetectDominantLanguage input => input.Text
  | .DetectSentiment input => input.Text
  | .DetectEntities input => input.Text
  | .DetectKeyPhrases input => input.Text
  | .DetectPiiEntities input => input.Text
  | .DetectSyntax input => input.Text

/-- The language code carried by a request, if its input has one. -/
def Request.LanguageCode : Request → Option GoString
  | .DetectDominantLanguage _ => none
  | .DetectSentiment input => some input.LanguageCode
  | .DetectEntities input => some input.LanguageCode
  | .DetectKeyPhrases input => some input.LanguageCode
  | .DetectPiiEntities input => some input.LanguageCode
  | .DetectSyntax input => some input.LanguageCode

/-- The remote service seen through the client handle: a state `σ` of the
world and, for each operation, the new state and either the error returned
(its `Error()` text) or the response. -/
structure Client (σ : Type) where
  DetectDominantLanguage :
    σ → DetectDominantLanguageInput → σ × Except GoString DetectDominantLanguageOutput
  DetectSentiment : σ → DetectSentimentInput → σ × Except GoString DetectSentimentOutput
  DetectEntities : σ → DetectEntitiesInput → σ × Except GoString DetectEntitiesOutput
  DetectKeyPhrases : σ → DetectKeyPhrasesInput → σ × Except GoString DetectKeyPhrasesOutput
  DetectPiiEntities : σ → DetectPiiEntitiesInput → σ × Except GoString DetectPiiEntitiesOutput
  DetectSyntax : σ → DetectSyntaxInput → σ × Except GoString DetectSyntaxOutput

/-! ## Observable behaviour -/

/-- What the program does that can be observed. -/
inductive Event where
  /-- One call of `fmt.Println` or `fmt.Printf`, with the bytes written. -/
  | print (s : GoString)
  /-- One request handed to the client, and whether the client returned an error. -/
  | call (req : Request) (failed : Bool)
  /-- The message of `log.Fatalf`, which ends the process. -/
  | fatal (s : GoString)
  deriving DecidableEq, Repr

/-- The result of running a piece of the program: the state of the remote
service afterwards, the events in order, and whether a panic stopped it. -/
structure Res (σ : Type) where
  remote : σ
  events : List Event
  aborted : Bool

/-- Sequencing of statements: what follows a panic does not run. -/
def Res.andThen {σ : Type} (r : Res σ) (f : σ → Res σ) : Res σ :=
  if r.aborted then r
  else
    let r2 := f r.remote
    { remote := r2.remote, events := r.events ++ r2.events, aborted := r2.aborted }

/-- The texts printed, in order. -/
def prints : List Event → List GoString
  | [] => []
  | .print s :: rest => s :: prints rest
  | _ :: rest => prints rest

/-- The requests issued, in order, each with whether it failed. -/
def callLog : List Event → List (Request × Bool)
  | [] => []
  | .call req failed :: rest => (req, failed) :: callLog rest
  | _ :: rest => callLog rest

/-- The requests issued, in order. -/
def calls : List Event → List Request
  | [] => []
  | .call req _ :: rest => req :: calls rest
  | _ :: rest => calls rest

/-- A statement that only prints. -/
def Res.say {σ : Type} (s : σ) (lines : List GoString) : Res σ :=
  { remote := s, events := lines.map Event.print, aborted := false }

/-! ## The program -/

/-- Sample texts to analyze. -/
def sampleTexts : List GoString :=
  [ utf8 "I love this new product! It's absolutely amazing and works perfectly. John Smith from New York called me at 555-123-4567.",
    utf8 "This service is terrible. I'm very disappointed and frustrated with the poor quality.",
    utf8 "The weather today is nice. My email is john.doe@example.com and my SSN is 123-45-6789." ]

/-- A loop `for _, x := range xs` whose body prints one line made from `x`:
the lines printed, and whether making a line panicked (`none`); nothing is
printed for the element it fails on, nor after it. -/
def rangeLoop {α : Type} (line : α → Option GoString) : List α → List Event × Bool
  | [] => ([], false)
  | x :: rest =>
    match line x with
    | none => ([], true)
    | some l =>
      let r := rangeLoop line rest
      (.print l :: r.1, r.2)

/-- The line of one language; `none` when `*lang.LanguageCode` or `*lang.Score`
dereferences nil. -/
def languageLine (lang : DominantLanguage) : Option GoString :=
  match lang.LanguageCode, lang.Score with
  | some code, some score =>
    some (utf8 "  Language: " ++ code ++ utf8 " (Confidence: " ++ pct score ++ utf8 ")\n")
  | _, _ => none

/-- Detect language of the text. -/
def detectLanguage {σ : Type} (client : Client σ) (text : GoString) (s : σ) : Res σ :=
  let input : DetectDominantLanguageInput := { Text := text }
  let r := client.DetectDominantLanguage s input
  let start (failed : Bool) : List Event :=
    [.print (Println (utf8 "🌍 Language Detection:")), .call (.DetectDominantLanguage input) failed]
  match r.2 with
  | .error err =>
    { remote := r.1, events := start true ++ [.print (utf8 "Error: " ++ err ++ utf8 "\n")],
      aborted := false }
  | .ok result =>
    let body := rangeLoop languageLine result.Languages
    if body.2 then { remote := r.1, events := start false ++ body.1, aborted := true }
    else { remote := r.1, events := start false ++ body.1 ++ [.print (Println [])], aborted := false }

/-- The line of the four scores; `none` when `result.SentimentScore` or one of
its four scores dereferences nil. -/
def scoresLine (scores : Option SentimentScore) : Option GoString :=
  match scores with
  | none => none
  | some sc =>
    match sc.Positive, sc.Negative, sc.Neutral, sc.Mixed with
    | some positive, some negative, some neutral, some mixed =>
      some (utf8 "  Positive: " ++ pct positive ++ utf8 " | Negative: " ++ pct negative
        ++ utf8 " | Neutral: " ++ pct neutral ++ utf8 " | Mixed: " ++ pct mixed ++ utf8 "\n")
    | _, _, _, _ => none

/-- Detect sentiment of the text. -/
def detectSentiment {σ : Type} (client : Client σ) (text : GoString) (s : σ) : Res σ :=
  let input : DetectSentimentInput := { Text := text, LanguageCode := LanguageCodeEn }
  let r := client.DetectSentiment s input
  let start (failed : Bool) : List Event :=
    [.print (Println (utf8 "😊 Sentiment Analysis:")), .call (.DetectSentiment input) failed]
  match r.2 with
  | .error err =>
    { remote := r.1, events := start true ++ [.print (utf8 "Error: " ++ err ++ utf8 "\n")],
      aborted := false }
  | .ok result =>
    let first : List Event :=
      start false ++ [.print (utf8 "  Sentiment: " ++ result.Sentiment ++ utf8 "\n")]
    match scoresLine result.SentimentScore with
    | none => { remote := r.1, events := first, aborted := true }
    | some line =>
      { remote := r.1, events := first ++ [.print line, .print (Println [])], aborted := false }

/-- The line of one entity; `none` when `*entity.Text` or `*entity.Score`
dereferences nil. -/
def entityLine (entity : Entity) : Option GoString :=
  match entity.Text, entity.Score with
  | some text, some score =>
    some (utf8 "  " ++ entity.Type_ ++ utf8 ": \"" ++ text ++ utf8 "\" (Confidence: "
      ++ pct score ++ utf8 ")\n")
  | _, _ => none

/-- Detect entities in the text. -/
def detectEntities {σ : Type} (client : Client σ) (text : GoString) (s : σ) : Res σ :=
  let input : DetectEntitiesInput := { Text := text, LanguageCode := LanguageCodeEn }
  let r := client.DetectEntities s input
  let start (failed : Bool) : List Event :=
    [.print (Println (utf8 "🏷️  Entity Detection:")), .call (.DetectEntities input) failed]
  match r.2 with
  | .error err =>
    { remote := r.1, events := start true ++ [.print (utf8 "Error: " ++ err ++ utf8 "\n")],
      aborted := false }
  | .ok result =>
    if result.Entities.length = 0 then
      { remote := r.1,
        events := start false ++ [.print (Println (utf8 "  No entities found")), .print (Println [])],
        aborted := false }
    else
      let body := rangeLoop entityLine result.Entities
      if body.2 then { remote := r.1, events := start false ++ body.1, aborted := true }
      else { remote := r.1, events := start false ++ body.1 ++ [.print (Println [])], aborted := false }

/-- The line of one key phrase; `none` when `*phrase.Text` or `*phrase.Score`
dereferences nil. -/
def keyPhraseLine (phrase : KeyPhrase) : Option GoString :=
  match phrase.Text, phrase.Score with
  | some text, some score =>
    some (utf8 "  \"" ++ text ++ utf8 "\" (Confidence: " ++ pct score ++ utf8 ")\n")
  | _, _ => none

/-- Detect key phrases in the text. -/
def detectKeyPhrases {σ : Type} (client : Client σ) (text : GoString) (s : σ) : Res σ :=
  let input : DetectKeyPhrasesInput := { Text := text, LanguageCode := LanguageCodeEn }
  let r := client.DetectKeyPhrases s input
  let start (failed : Bool) : List Event :=
    [.print (Println (utf8 "🔑 Key Phrases:")), .call (.DetectKeyPhrases input) failed]
  match r.2 with
  | .error err =>
    { remote := r.1, events := start true ++ [.print (utf8 "Error: " ++ err ++ utf8 "\n")],
      aborted := false }
  | .ok result =>
    if result.KeyPhrases.length = 0 then
      { remote := r.1,
        events := start false
          ++ [.print (Println (utf8 "  No key phrases found")), .print (Println [])],
        aborted := false }
    else
      let body := rangeLoop keyPhraseLine result.KeyPhrases
      if body.2 then { remote := r.1, events := start false ++ body.1, aborted := true }
      else { remote := r.1, events := start false ++ body.1 ++ [.print (Println [])], aborted := false }

/-- The line printed for one PII entity, given the substring shown in quotes. -/
def piiLine (type_ sub : GoString) (score : F32) : GoString :=
  utf8 "  " ++ type_ ++ utf8 ": \"" ++ sub ++ utf8 "\" (Confidence: " ++ pct score ++ utf8 ")\n"

/-- The line of one PII entity of the text; `none` when `*entity.BeginOffset`,
`*entity.EndOffset` or `*entity.Score` dereferences nil, or when the slice
expression `text[begin:end]` is out of range. -/
def piiEntityLine (text : GoString) (entity : PiiEntity) : Option GoString :=
  match entity.BeginOffset, entity.EndOffset, entity.Score with
  | some lo, some hi, some score =>
    match slice text lo hi with
    | some sub => some (piiLine entity.Type_ sub score)
    | none => none
  | _, _, _ => none

/-- Detect PII (Personally Identifiable Information). -/
def detectPII {σ : Type} (client : Client σ) (text : GoString) (s : σ) : Res σ :=
  let input : DetectPiiEntitiesInput := { Text := text, LanguageCode := LanguageCodeEn }
  let r := client.DetectPiiEntities s input
  let start (failed : Bool) : List Event :=
    [.print (Println (utf8 "🔒 PII Detection:")), .call (.DetectPiiEntities input) failed]
  match r.2 with
  | .error err =>
    { remote := r.1, events := start true ++ [.print (utf8 "Error: " ++ err ++ utf8 "\n")],
      aborted := false }
  | .ok result =>
    if result.Entities.length = 0 then
      { remote := r.1,
        events := start false ++ [.print (Println (utf8 "  No PII found")), .print (Println [])],
        aborted := false }
    else
      let body := rangeLoop (piiEntityLine text) result.Entities
      if body.2 then { remote := r.1, events := start false ++ body.1, aborted := true }
      else { remote := r.1, events := start false ++ body.1 ++ [.print (Println [])], aborted := false }

/-- The line of one token; `none` when `*token.Text` or `token.PartOfSpeech`
dereferences nil. -/
def tokenLine (token : SyntaxToken) : Option GoString :=
  match token.Text, token.PartOfSpeech with
  | some text, some partOfSpeech =>
    some (utf8 "  \"" ++ text ++ utf8 "\" -> " ++ partOfSpeech.Tag ++ utf8 "\n")
  | _, _ => none

/-- The loop `for i := 0; i < maxTokens; i++` of `detectSyntax`, started at
index `i` with the number of iterations left: the lines printed, and whether
the index expression `SyntaxTokens[i]` or the line of the token panicked. -/
def syntaxLoop (tokens : List SyntaxToken) (i : Nat) : Nat → List Event × Bool
  | 0 => ([], false)
  | left + 1 =>
    match tokens[i]? with
    | none => ([], true)
    | some token =>
      match tokenLine token with
      | none => ([], true)
      | some l =>
        let r := syntaxLoop tokens (i + 1) left
        (.print l :: r.1, r.2)

/-- Detect syntax and parts of speech. -/
def detectSyntax {σ : Type} (client : Client σ) (text : GoString) (s : σ) : Res σ :=
  let input : DetectSyntaxInput := { Text := text, LanguageCode := LanguageCodeEn }
  let r := client.DetectSyntax s input
  let start (failed : Bool) : List Event :=
    [.print (Println (utf8 "📝 Syntax Analysis (First 5 tokens):")), .call (.DetectSyntax input) failed]
  match r.2 with
  | .error err =>
    { remote := r.1, events := start true ++ [.print (utf8 "Error: " ++ err ++ utf8 "\n")],
      aborted := false }
  | .ok result =>
    -- Show only first 5 tokens to keep output clean
    let maxTokens : Nat := if result.SyntaxTokens.length < 5 then result.SyntaxTokens.length else 5
    let body := syntaxLoop result.SyntaxTokens 0 maxTokens
    if body.2 then { remote := r.1, events := start false ++ body.1, aborted := true }
    else
      { remote := r.1,
        events := start false ++ body.1
          ++ (if 5 < result.SyntaxTokens.length then
                [.print (utf8 "  ... and " ++ fmtInt ((result.SyntaxTokens.length : Int) - 5)
                  ++ utf8 " more tokens\n")]
              else [])
          ++ [.print (Println [])],
        aborted := false }

/-- The body of the loop of `main` for the text of index `i`. -/
def loopBody {σ : Type} (client : Client σ) (i : Nat) (text : GoString) (s : σ) : Res σ :=
  (Res.say s [utf8 "📝 Sample Text " ++ fmtInt ((i : Int) + 1) ++ utf8 ":\n" ++ text ++ utf8 "\n\n"])
    -- Analyze each feature
    |>.andThen (detectLanguage client text)
    |>.andThen (detectSentiment client text)
    |>.andThen (detectEntities client text)
    |>.andThen (detectKeyPhrases client text)
    |>.andThen (detectPII client text)
    |>.andThen (detectSyntax client text)
    |>.andThen (fun s => Res.say s [Println (utf8 "----------------------------------------\n")])

/-- The loop of `main` over the texts, `i` being the index of the first one. -/
def mainLoop {σ : Type} (client : Client σ) : List GoString → Nat → σ → Res σ
  | [], _, s => Res.say s []
  | text :: rest, i, s => (loopBody client i text s).andThen (mainLoop client rest (i + 1))

/-- The function `main`, run against a client and a state of the remote service. -/
def main {σ : Type} (client : Client σ) (s : σ) : Res σ :=
  (Res.say s [Println (utf8 "🔍 AWS Comprehend Demo - Text Analysis"),
              Println (utf8 "=====================================\n")])
    |>.andThen (mainLoop client sampleTexts 0)

/-- The function `init`: the client built from the loaded configuration, or the
message of `log.Fatalf` when loading fails. -/
def init {κ σ : Type} (LoadDefaultConfig : Except GoString κ) (NewFromConfig : κ → Client σ) :
    Except GoString (Client σ) :=
  match LoadDefaultConfig with
  | .error err => .error (utf8 "Failed to load AWS config: " ++ err)
  | .ok cfg => .ok (NewFromConfig cfg)

/-- How the process ends: normally, by `log.Fatalf`, or by a run-time panic. -/
inductive Exit where
  | success
  | fatal
  | panic
  deriving DecidableEq, Repr

/-- The whole process: `init`, then `main`. -/
def program {κ σ : Type} (LoadDefaultConfig : Except GoString κ) (NewFromConfig : κ → Client σ)
    (s : σ) : List Event × Exit :=
  match init LoadDefaultConfig NewFromConfig with
  | .error msg => ([.fatal msg], .fatal)
  | .ok client =>
    let r := main client s
    (r.events, if r.aborted then .panic else .success)

/-! ## Vocabulary of the properties -/

/-- Whether a call of the client returned an error. -/
def isError {ε α : Type} : Except ε α → Bool
  | .error _ => true
  | .ok _ => false

/-- A language that carries its code and its score. -/
def DominantLanguage.Complete (lang : DominantLanguage) : Prop :=
  lang.LanguageCode.isSome = true ∧ lang.Score.isSome = true

/-- Sentiment scores that are present, all four of them. -/
def SentimentScore.Complete (scores : Option SentimentScore) : Prop :=
  ∃ sc, scores = some sc ∧ sc.Positive.isSome = true ∧ sc.Negative.isSome = true
    ∧ sc.Neutral.isSome = true ∧ sc.Mixed.isSome = true

/-- An entity that carries its text and its score. -/
def Entity.Complete (entity : Entity) : Prop :=
  entity.Text.isSome = true ∧ entity.Score.isSome = true

/-- A key phrase that carries its text and its score. -/
def KeyPhrase.Complete (phrase : KeyPhrase) : Prop :=
  phrase.Text.isSome = true ∧ phrase.Score.isSome = true

/-- A PII entity that carries offsets inside the text:
`0 <= begin <= end <= len(text)`. -/
def PiiEntity.InRange (text : GoString) (entity : PiiEntity) : Prop :=
  ∃ lo hi : Int, entity.BeginOffset = some lo ∧ entity.EndOffset = some hi
    ∧ 0 ≤ lo ∧ lo ≤ hi ∧ hi ≤ (text.length : Int)

/-- A PII entity that carries offsets inside the text, and its score. -/
def PiiEntity.Complete (text : GoString) (entity : PiiEntity) : Prop :=
  entity.InRange text ∧ entity.Score.isSome = true

/-- A token that carries its text and its part of speech. -/
def SyntaxToken.Complete (token : SyntaxToken) : Prop :=
  token.Text.isSome = true ∧ token.PartOfSpeech.isSome = true

/-- The successful language-detection responses of the client carry the code
and the score of every language. -/
def LanguagesComplete {σ : Type} (client : Client σ) : Prop :=
  ∀ s input result, (client.DetectDominantLanguage s input).2 = .ok result →
    ∀ lang ∈ result.Languages, lang.Complete

/-- Every successful response of the client carries the fields the program
reads, and the offsets of a PII entity lie inside the text of the request;
of the tokens, the first five are concerned. -/
def WellFormed {σ : Type} (client : Client σ) : Prop :=
  LanguagesComplete client
  ∧ (∀ s input result, (client.DetectSentiment s input).2 = .ok result →
      SentimentScore.Complete result.SentimentScore)
  ∧ (∀ s input result, (client.DetectEntities s input).2 = .ok result →
      ∀ entity ∈ result.Entities, entity.Complete)
  ∧ (∀ s input result, (client.DetectKeyPhrases s input).2 = .ok result →
      ∀ phrase ∈ result.KeyPhrases, phrase.Complete)
  ∧ (∀ s input result, (client.DetectPiiEntities s input).2 = .ok result →
      ∀ entity ∈ result.Entities, entity.Complete input.Text)
  ∧ (∀ s input result, (client.DetectSyntax s input).2 = .ok result →
      ∀ token ∈ result.SyntaxTokens.take 5, token.Complete)

/-- The operation that `main` runs after the given one on the same text. -/
def Op.next : Op → Option Op
  | .language => some .sentiment
  | .sentiment => some .entities
  | .entities => some .keyPhrases
  | .keyPhrases => some .pii
  | .pii => some .syntaxTokens
  | .syntaxTokens => none

/-- In a log of calls, every failed call for an operation that has a successor
is directly followed by the call for that successor on the same text. -/
def FailureIsolated : List (Request × Bool) → Prop
  | [] => True
  | c :: rest =>
    (c.2 = true → ∀ o, c.1.op.next = some o →
        ∃ d, rest.head? = some d ∧ d.1.op = o ∧ d.1.Text = c.1.Text)
      ∧ FailureIsolated rest

/-- The six operations on one text, in the order of `main`. -/
def sixOperations (text : GoString) : List (Op × GoString) :=
  [(.language, text), (.sentiment, text), (.entities, text), (.keyPhrases, text), (.pii, text),
    (.syntaxTokens, text)]

/-- The six requests for one text, in the order of `main`. -/
def requestsFor (text : GoString) : List Request :=
  [.DetectDominantLanguage { Text := text },
    .DetectSentiment { Text := text, LanguageCode := LanguageCodeEn },
    .DetectEntities { Text := text, LanguageCode := LanguageCodeEn },
    .DetectKeyPhrases { Text := text, LanguageCode := LanguageCodeEn },
    .DetectPiiEntities { Text := text, LanguageCode := LanguageCodeEn },
    .DetectSyntax { Text := text, LanguageCode := LanguageCodeEn }]

/-- The elements of a sequence at positions `lo`, `lo + 1`, ..., `hi - 1`. -/
def between {α : Type} (l : List α) (lo hi : Nat) : List α :=
  (List.range' lo (hi - lo)).filterMap (fun k => l[k]?)

/-- The line that ends the block of a text. -/
def separator : GoString := Println (utf8 "----------------------------------------\n")

/-- Two results agree in the state of the remote service, in whether a panic
occurred, and in the requests issued. -/
def SameRequests {σ : Type} (r r2 : Res σ) : Prop :=
  r.remote = r2.remote ∧ r.aborted = r2.aborted ∧ calls r.events = calls r2.events

/-- The log of calls starts with a call for the given operation on the given
text, when one is given. -/
def Expect (first : Option (Op × GoString)) (log : List (Request × Bool)) : Prop :=
  ∀ o t, first = some (o, t) → ∃ d, log.head? = some d ∧ d.1.op = o ∧ d.1.Text = t

/-- Whatever the state, the rest of the run `k` isolates failures and starts
with the expected call. -/
def IsolatedFrom {σ : Type} (first : Option (Op × GoString)) (k : σ → Res σ) : Prop :=
  ∀ s, FailureIsolated (callLog (k s).events) ∧ Expect first (callLog (k s).events)

/-- The step `f` issues the one request `req`, and panics only after a call
that succeeded. -/
def IsOp {σ : Type} (f : σ → Res σ) (req : Request) : Prop :=
  ∀ s, ∃ b, callLog (f s).events = [(req, b)] ∧ ((f s).aborted = true → b = false)

/-- Whatever the state, the rest of the run `k` returns normally after
exactly the requests `reqs`. -/
def CallsFrom {σ : Type} (reqs : List Request) (k : σ → Res σ) : Prop :=
  ∀ s, (k s).aborted = false ∧ calls (k s).events = reqs

/-! ## Concrete clients -/

/-- A client whose every call fails with a throttling error. -/
def throttled : Client Unit where
  DetectDominantLanguage s _ := (s, .error (utf8 "ThrottlingException: Rate exceeded"))
  DetectSentiment s _ := (s, .error (utf8 "ThrottlingException: Rate exceeded"))
  DetectEntities s _ := (s, .error (utf8 "ThrottlingException: Rate exceeded"))
  DetectKeyPhrases s _ := (s, .error (utf8 "ThrottlingException: Rate exceeded"))
  DetectPiiEntities s _ := (s, .error (utf8 "ThrottlingException: Rate exceeded"))
  DetectSyntax s _ := (s, .error (utf8 "ThrottlingException: Rate exceeded"))

/-- A client whose every call succeeds with nothing found (and a neutral sentiment). -/
def silent : Client Unit where
  DetectDominantLanguage s _ := (s, .ok { Languages := [] })
  DetectSentiment s _ :=
    (s, .ok { Sentiment := utf8 "NEUTRAL",
              SentimentScore := some { Mixed := some (.fin false 0 0),
                                       Negative := some (.fin false 0 0),
                                       Neutral := some (.fin false 1 0),
                                       Positive := some (.fin false 0 0) } })
  DetectEntities s _ := (s, .ok { Entities := [] })
  DetectKeyPhrases s _ := (s, .ok { KeyPhrases := [] })
  DetectPiiEntities s _ := (s, .ok { Entities := [] })
  DetectSyntax s _ := (s, .ok { SyntaxTokens := [] })

/-- The float32 nearest to the decimal `n / 10^digits`. -/
def F32.ofDecimal (n digits : Nat) : F32 := F32.round false n (10 ^ digits)

/-- Key-phrase extraction is throttled; PII detection finds the whole text. -/
def keyPhrasesThrottled : Client Unit :=
  { silent with
    DetectKeyPhrases := fun s _ => (s, .error (utf8 "ThrottlingException: Rate exceeded"))
    DetectPiiEntities := fun s input =>
      (s, .ok { Entities := [{ Type_ := utf8 "NAME", BeginOffset := some 0,
                               EndOffset := some input.Text.length,
                               Score := some (F32.ofDecimal 99 2) }] }) }

/-- PII detection answers with an entity that ends before it begins. -/
def piiBackwards : Client Unit :=
  { silent with
    DetectPiiEntities := fun s _ =>
      (s, .ok { Entities := [{ Type_ := utf8 "NAME", BeginOffset := some 5, EndOffset := some 2,
                               Score := some (F32.ofDecimal 99 2) }] }) }

/-- The state counts the calls; from the second text on, PII detection
answers with an entity that ends beyond the end of the text. -/
def piiBeyondEnd : Client Nat where
  DetectDominantLanguage s _ := (s + 1, .ok { Languages := [] })
  DetectSentiment s _ := (s + 1, .error (utf8 "ThrottlingException: Rate exceeded"))
  DetectEntities s _ := (s + 1, .ok { Entities := [] })
  DetectKeyPhrases s _ := (s + 1, .ok { KeyPhrases := [] })
  DetectPiiEntities s _ :=
    (s + 1, .ok { Entities := [{ Type_ := utf8 "SSN", BeginOffset := some 0,
                                 EndOffset := some (if s < 6 then 4 else 1000),
                                 Score := some (F32.ofDecimal 99 2) }] })
  DetectSyntax s _ := (s + 1, .ok { SyntaxTokens := [] })

/-- PII detection finds a number at positions 10 to 21. -/
def findsNumber : Client Unit :=
  { silent with
    DetectPiiEntities := fun s _ =>
      (s, .ok { Entities := [{ Type_ := utf8 "SSN", BeginOffset := some 10, EndOffset := some 21,
                               Score := some (F32.ofDecimal 99 2) }] }) }

/-- PII detection finds a number at positions 10 to 21 and gives no score for it. -/
def findsNumberWithoutScore : Client Unit :=
  { silent with
    DetectPiiEntities := fun s _ =>
      (s, .ok { Entities := [{ Type_ := utf8 "SSN", BeginOffset := some 10, EndOffset := some 21,
                               Score := none }] }) }

/-- PII detection finds a number at characters 5 to 7. -/
def findsDigits : Client Unit :=
  { silent with
    DetectPiiEntities := fun s _ =>
      (s, .ok { Entities := [{ Type_ := utf8 "AGE", BeginOffset := some 5, EndOffset := some 7,
                               Score := some (F32.ofDecimal 99 2) }] }) }

/-- Syntax analysis answers with seven tokens. -/
def sevenTokens : Client Unit :=
  { silent with
    DetectSyntax := fun s _ =>
      (s, .ok { SyntaxTokens :=
        [{ Text := some (utf8 "The"), PartOfSpeech := some { Tag := utf8 "DET" } },
         { Text := some (utf8 "weather"), PartOfSpeech := some { Tag := utf8 "NOUN" } },
         { Text := some (utf8 "today"), PartOfSpeech := some { Tag := utf8 "NOUN" } },
         { Text := some (utf8 "is"), PartOfSpeech := some { Tag := utf8 "VERB" } },
         { Text := some (utf8 "nice"), PartOfSpeech := some { Tag := utf8 "ADJ" } },
         { Text := some (utf8 "."), PartOfSpeech := some { Tag := utf8 "PUNCT" } },
         { Text := some (utf8 "My"), PartOfSpeech := some { Tag := utf8 "PRON" } }] }) }

/-- Syntax analysis answers with two tokens, the second without its text. -/
def tokenWithoutText : Client Unit :=
  { silent with
    DetectSyntax := fun s _ =>
      (s, .ok { SyntaxTokens :=
        [{ Text := some (utf8 "Hola"), PartOfSpeech := some { Tag := utf8 "INTJ" } },
         { Text := none, PartOfSpeech := some { Tag := utf8 "PUNCT" } }] }) }

/-- Entity detection finds one person. -/
def findsPerson : Client Unit :=
  { silent with
    DetectEntities := fun s _ =>
      (s, .ok { Entities := [{ Type_ := utf8 "PERSON", Text := some (utf8 "John Smith"),
                               Score := some (F32.ofDecimal 9534 4) }] }) }

/-- Entity detection finds two entities, the second without its score. -/
def placeWithoutScore : Client Unit :=
  { silent with
    DetectEntities := fun s _ =>
      (s, .ok { Entities := [{ Type_ := utf8 "PERSON", Text := some (utf8 "John Smith"),
                               Score := some (F32.ofDecimal 9534 4) },
                             { Type_ := utf8 "LOCATION", Text := some (utf8 "New York"),
                               Score := none }] }) }

/-- Language detection answers with a language without its score. -/
def languageWithoutScore : Client Unit :=
  { silent with
    DetectDominantLanguage := fun s _ =>
      (s, .ok { Languages := [{ LanguageCode := some (utf8 "en"), Score := none }] }) }

/-! ## Projections of the event list -/

theorem prints_append (a b : List Event) : prints (a ++ b) = prints a ++ prints b := by
  induction a with
  | nil => rfl
  | cons e rest ih => cases e <;> simp [prints, ih]

theorem calls_append (a b : List Event) : calls (a ++ b) = calls a ++ calls b := by
  induction a with
  | nil => rfl
  | cons e rest ih => cases e <;> simp [calls, ih]

theorem callLog_append (a b : List Event) : callLog (a ++ b) = callLog a ++ callLog b := by
  induction a with
  | nil => rfl
  | cons e rest ih => cases e <;> simp [callLog, ih]

theorem calls_eq_map_callLog (a : List Event) : calls a = (callLog a).map Prod.fst := by
  induction a with
  | nil => rfl
  | cons e rest ih => cases e <;> simp [calls, callLog, ih]

/-! ## Sequencing -/

theorem Res.andThen_aborted {σ : Type} (r : Res σ) (f : σ → Res σ) :
    (r.andThen f).aborted = (r.aborted || (f r.remote).aborted) := by
  unfold Res.andThen
  cases h : r.aborted <;> simp [h]

theorem Res.andThen_events {σ : Type} (r : Res σ) (f : σ → Res σ) :
    (r.andThen f).events = r.events ++ (if r.aborted then [] else (f r.remote).events) := by
  unfold Res.andThen
  cases h : r.aborted <;> simp [h]

theorem Res.andThen_remote {σ : Type} (r : Res σ) (f : σ → Res σ) :
    (r.andThen f).remote = if r.aborted then r.remote else (f r.remote).remote := by
  unfold Res.andThen
  cases h : r.aborted <;> simp [h]

theorem Res.andThen_assoc {σ : Type} (r : Res σ) (f g : σ → Res σ) :
    (r.andThen f).andThen g = r.andThen (fun s => (f s).andThen g) := by
  unfold Res.andThen
  cases h : r.aborted
  · cases h2 : (f r.remote).aborted <;> simp [h2]
  · simp [h]

theorem callLog_say (l : List GoString) : callLog (l.map Event.print) = [] := by
  induction l with
  | nil => rfl
  | cons x rest ih => simpa [callLog] using ih

theorem prints_say (l : List GoString) : prints (l.map Event.print) = l := by
  induction l with
  | nil => rfl
  | cons x rest ih => simpa [prints] using ih

/-! ## The loops -/

theorem rangeLoop_callLog {α : Type} (line : α → Option GoString) (l : List α) :
    callLog (rangeLoop line l).1 = [] := by
  induction l with
  | nil => rfl
  | cons x rest ih =>
    unfold rangeLoop
    cases line x with
    | none => rfl
    | some v => simpa [callLog] using ih

/-- A loop over elements that all give a line prints these lines. -/
theorem rangeLoop_map_some {α β : Type} (line : α → Option GoString) (g : β → α)
    (h : β → GoString) (l : List β) (hl : ∀ x ∈ l, line (g x) = some (h x)) :
    rangeLoop line (l.map g) = ((l.map h).map Event.print, false) := by
  induction l with
  | nil => rfl
  | cons x rest ih =>
    have h1 := hl x (List.mem_cons_self _ _)
    have h2 := ih (fun y hy => hl y (List.mem_cons_of_mem _ hy))
    simp [rangeLoop, h1, h2]

theorem rangeLoop_of_isSome {α : Type} (line : α → Option GoString) (l : List α)
    (h : ∀ x ∈ l, (line x).isSome = true) : (rangeLoop line l).2 = false := by
  induction l with
  | nil => rfl
  | cons x rest ih =>
    have h1 := h x (List.mem_cons_self _ _)
    have h2 := ih (fun y hy => h y (List.mem_cons_of_mem _ hy))
    unfold rangeLoop
    cases hx : line x with
    | none => rw [hx] at h1; simp at h1
    | some v => simpa using h2

/-- The loop in general: the lines of the elements before the first one that
gives none, and a panic when there is such an element. -/
theorem rangeLoop_takeWhile {α : Type} (line : α → Option GoString) (shows : α → Bool)
    (render : α → GoString) (l : List α)
    (h : ∀ x ∈ l, line x = if shows x then some (render x) else none) :
    rangeLoop line l
      = (((l.takeWhile shows).map render).map Event.print, !(l.all shows)) := by
  induction l with
  | nil => rfl
  | cons x rest ih =>
    have h1 := h x (List.mem_cons_self _ _)
    have h2 := ih (fun y hy => h y (List.mem_cons_of_mem _ hy))
    unfold rangeLoop
    cases hs : shows x
    · simp [h1, hs, List.takeWhile]
    · simp [h1, hs, List.takeWhile, h2]

theorem syntaxLoop_eq (tokens : List SyntaxToken) (left i : Nat) (h : i + left ≤ tokens.length) :
    syntaxLoop tokens i left = rangeLoop tokenLine ((tokens.drop i).take left) := by
  induction left generalizing i with
  | zero => simp [syntaxLoop, rangeLoop]
  | succ n ih =>
    have hi : i < tokens.length := by omega
    have h2 := ih (i + 1) (by omega)
    rw [syntaxLoop, List.getElem?_eq_getElem hi, h2, List.drop_eq_getElem_cons hi,
      List.take_succ_cons, rangeLoop]

/-- The index loop of `detectSyntax` as it is called: never out of range. -/
theorem syntaxLoop_take (tokens : List SyntaxToken) :
    syntaxLoop tokens 0 (if tokens.length < 5 then tokens.length else 5) =
      rangeLoop tokenLine (tokens.take 5) := by
  rw [syntaxLoop_eq tokens _ 0 (by split <;> omega)]
  split
  · rename_i h
    rw [List.drop_zero, List.take_of_length_le (Nat.le_refl _), List.take_of_length_le (by omega)]
  · rfl

/-- The slice expression within its bounds. -/
theorem slice_of_inRange (text : GoString) (lo hi : Int)
    (h : 0 ≤ lo ∧ lo ≤ hi ∧ hi ≤ (text.length : Int)) :
    slice text lo hi = some ((text.drop lo.toNat).take (hi.toNat - lo.toNat)) := by
  simp [slice, h]

/-! ## Responses that carry their fields give their lines -/

theorem languageLine_isSome (lang : DominantLanguage) (h : lang.Complete) :
    (languageLine lang).isSome = true := by
  obtain ⟨h1, h2⟩ := h
  unfold languageLine
  cases hc : lang.LanguageCode <;> cases hs : lang.Score <;> simp_all

theorem scoresLine_isSome (scores : Option SentimentScore)
    (h : SentimentScore.Complete scores) : (scoresLine scores).isSome = true := by
  obtain ⟨sc, rfl, h1, h2, h3, h4⟩ := h
  unfold scoresLine
  cases hp : sc.Positive <;> cases hn : sc.Negative <;> cases hu : sc.Neutral
    <;> cases hm : sc.Mixed <;> simp_all

theorem entityLine_isSome (entity : Entity) (h : entity.Complete) :
    (entityLine entity).isSome = true := by
  obtain ⟨h1, h2⟩ := h
  unfold entityLine
  cases hc : entity.Text <;> cases hs : entity.Score <;> simp_all

theorem keyPhraseLine_isSome (phrase : KeyPhrase) (h : phrase.Complete) :
    (keyPhraseLine phrase).isSome = true := by
  obtain ⟨h1, h2⟩ := h
  unfold keyPhraseLine
  cases hc : phrase.Text <;> cases hs : phrase.Score <;> simp_all

/-- The line of a PII entity whose offsets lie inside the text: there is one
exactly when the entity carries a score. -/
theorem piiEntityLine_of_inRange (text : GoString) (entity : PiiEntity)
    (h : entity.InRange text) :
    piiEntityLine text entity =
      if entity.Score.isSome then
        some (piiLine entity.Type_
          ((text.drop (entity.BeginOffset.getD 0).toNat).take
            ((entity.EndOffset.getD 0).toNat - (entity.BeginOffset.getD 0).toNat))
          (entity.Score.getD .nan))
      else none := by
  obtain ⟨lo, hi, h1, h2, h3⟩ := h
  unfold piiEntityLine
  rw [h1, h2]
  cases hs : entity.Score with
  | none => simp
  | some score => simp [slice_of_inRange text lo hi h3]

theorem piiEntityLine_isSome (text : GoString) (entity : PiiEntity)
    (h : entity.Complete text) : (piiEntityLine text entity).isSome = true := by
  rw [piiEntityLine_of_inRange text entity h.1, h.2]
  rfl

theorem tokenLine_isSome (token : SyntaxToken) (h : token.Complete) :
    (tokenLine token).isSome = true := by
  obtain ⟨h1, h2⟩ := h
  unfold tokenLine
  cases hc : token.Text <;> cases hs : token.PartOfSpeech <;> simp_all

/-! ## Each operation: the request it issues, and when it returns normally -/

theorem detectLanguage_callLog {σ : Type} (client : Client σ) (text : GoString) (s : σ) :
    callLog (detectLanguage client text s).events =
      [(.DetectDominantLanguage { Text := text },
        isError (client.DetectDominantLanguage s { Text := text }).2)] := by
  simp only [detectLanguage]
  split <;> rename_i h
  · simp [h, callLog, callLog_append, isError]
  · split <;> simp [h, callLog, callLog_append, rangeLoop_callLog, isError]

theorem detectSentiment_callLog {σ : Type} (client : Client σ) (text : GoString) (s : σ) :
    callLog (detectSentiment client text s).events =
      [(.DetectSentiment { Text := text, LanguageCode := LanguageCodeEn },
        isError (client.DetectSentiment s { Text := text, LanguageCode := LanguageCodeEn }).2)] := by
  simp only [detectSentiment]
  split <;> rename_i h
  · simp [h, callLog, callLog_append, isError]
  · split <;> simp [h, callLog, callLog_append, isError]

theorem detectEntities_callLog {σ : Type} (client : Client σ) (text : GoString) (s : σ) :
    callLog (detectEntities client text s).events =
      [(.DetectEntities { Text := text, LanguageCode := LanguageCodeEn },
        isError (client.DetectEntities s { Text := text, LanguageCode := LanguageCodeEn }).2)] := by
  simp only [detectEntities]
  split <;> rename_i h
  · simp [h, callLog, callLog_append, isError]
  · split
    · simp [h, callLog, callLog_append, isError]
    · split <;> simp [h, callLog, callLog_append, rangeLoop_callLog, isError]

theorem detectKeyPhrases_callLog {σ : Type} (client : Client σ) (text : GoString) (s : σ) :
    callLog (detectKeyPhrases client text s).events =
      [(.DetectKeyPhrases { Text := text, LanguageCode := LanguageCodeEn },
        isError (client.DetectKeyPhrases s { Text := text, LanguageCode := LanguageCodeEn }).2)] := by
  simp only [detectKeyPhrases]
  split <;> rename_i h
  · simp [h, callLog, callLog_append, isError]
  · split
    · simp [h, callLog, callLog_append, isError]
    · split <;> simp [h, callLog, callLog_append, rangeLoop_callLog, isError]

theorem detectPII_callLog {σ : Type} (client : Client σ) (text : GoString) (s : σ) :
    callLog (detectPII client text s).events =
      [(.DetectPiiEntities { Text := text, LanguageCode := LanguageCodeEn },
        isError (client.DetectPiiEntities s { Text := text, LanguageCode := LanguageCodeEn }).2)] := by
  simp only [detectPII]
  split <;> rename_i h
  · simp [h, callLog, callLog_append, isError]
  · split
    · simp [h, callLog, callLog_append, isError]
    · split <;> simp [h, callLog, callLog_append, rangeLoop_callLog, isError]

theorem detectSyntax_callLog {σ : Type} (client : Client σ) (text : GoString) (s : σ) :
    callLog (detectSyntax client text s).events =
      [(.DetectSyntax { Text := text, LanguageCode := LanguageCodeEn },
        isError (client.DetectSyntax s { Text := text, LanguageCode := LanguageCodeEn }).2)] := by
  simp only [detectSyntax]
  split <;> rename_i h
  · simp [h, callLog, callLog_append, isError]
  · simp only [syntaxLoop_take]
    split
    · simp [h, callLog, callLog_append, rangeLoop_callLog, isError]
    · split <;> simp [h, callLog, callLog_append, rangeLoop_callLog, isError]

theorem detectLanguage_isOp {σ : Type} (client : Client σ) (text : GoString) :
    IsOp (detectLanguage client text) (.DetectDominantLanguage { Text := text }) := by
  intro s
  refine ⟨_, detectLanguage_callLog client text s, ?_⟩
  intro h
  simp only [detectLanguage] at h
  split at h
  · simp at h
  · rename_i h1
    simp [h1, isError]

theorem detectSentiment_isOp {σ : Type} (client : Client σ) (text : GoString) :
    IsOp (detectSentiment client text)
      (.DetectSentiment { Text := text, LanguageCode := LanguageCodeEn }) := by
  intro s
  refine ⟨_, detectSentiment_callLog client text s, ?_⟩
  intro h
  simp only [detectSentiment] at h
  split at h
  · simp at h
  · rename_i h1
    simp [h1, isError]

theorem detectEntities_isOp {σ : Type} (client : Client σ) (text : GoString) :
    IsOp (detectEntities client text)
      (.DetectEntities { Text := text, LanguageCode := LanguageCodeEn }) := by
  intro s
  refine ⟨_, detectEntities_callLog client text s, ?_⟩
  intro h
  simp only [detectEntities] at h
  split at h
  · simp at h
  · rename_i h1
    simp [h1, isError]

theorem detectKeyPhrases_isOp {σ : Type} (client : Client σ) (text : GoString) :
    IsOp (detectKeyPhrases client text)
      (.DetectKeyPhrases { Text := text, LanguageCode := LanguageCodeEn }) := by
  intro s
  refine ⟨_, detectKeyPhrases_callLog client text s, ?_⟩
  intro h
  simp only [detectKeyPhrases] at h
  split at h
  · simp at h
  · rename_i h1
    simp [h1, isError]

theorem detectPII_isOp {σ : Type} (client : Client σ) (text : GoString) :
    IsOp (detectPII client text)
      (.DetectPiiEntities { Text := text, LanguageCode := LanguageCodeEn }) := by
  intro s
  refine ⟨_, detectPII_callLog client text s, ?_⟩
  intro h
  simp only [detectPII] at h
  split at h
  · simp at h
  · rename_i h1
    simp [h1, isError]

theorem detectSyntax_isOp {σ : Type} (client : Client σ) (text : GoString) :
    IsOp (detectSyntax client text)
      (.DetectSyntax { Text := text, LanguageCode := LanguageCodeEn }) := by
  intro s
  refine ⟨_, detectSyntax_callLog client text s, ?_⟩
  intro h
  simp only [detectSyntax] at h
  split at h
  · simp at h
  · rename_i h1
    simp [h1, isError]

theorem detectLanguage_aborted {σ : Type} (client : Client σ) (text : GoString) (s : σ)
    (h : LanguagesComplete client) : (detectLanguage client text s).aborted = false := by
  simp only [detectLanguage]
  split
  · rfl
  · rename_i result hr
    have h1 := rangeLoop_of_isSome languageLine result.Languages
      (fun lang hl => languageLine_isSome lang (h s _ result hr lang hl))
    simp [h1]

theorem detectSentiment_aborted {σ : Type} (client : Client σ) (text : GoString) (s : σ)
    (h : WellFormed client) : (detectSentiment client text s).aborted = false := by
  simp only [detectSentiment]
  split
  · rfl
  · rename_i result hr
    have h1 := scoresLine_isSome result.SentimentScore (h.2.1 s _ result hr)
    split
    · rename_i hn
      rw [hn] at h1
      simp at h1
    · rfl

theorem detectEntities_aborted {σ : Type} (client : Client σ) (text : GoString) (s : σ)
    (h : WellFormed client) : (detectEntities client text s).aborted = false := by
  simp only [detectEntities]
  split
  · rfl
  · rename_i result hr
    have h1 := rangeLoop_of_isSome entityLine result.Entities
      (fun entity hl => entityLine_isSome entity (h.2.2.1 s _ result hr entity hl))
    split
    · rfl
    · simp [h1]

theorem detectKeyPhrases_aborted {σ : Type} (client : Client σ) (text : GoString) (s : σ)
    (h : WellFormed client) : (detectKeyPhrases client text s).aborted = false := by
  simp only [detectKeyPhrases]
  split
  · rfl
  · rename_i result hr
    have h1 := rangeLoop_of_isSome keyPhraseLine result.KeyPhrases
      (fun phrase hl => keyPhraseLine_isSome phrase (h.2.2.2.1 s _ result hr phrase hl))
    split
    · rfl
    · simp [h1]

theorem detectPII_aborted {σ : Type} (client : Client σ) (text : GoString) (s : σ)
    (h : WellFormed client) : (detectPII client text s).aborted = false := by
  simp only [detectPII]
  split
  · rfl
  · rename_i result hr
    have h1 := rangeLoop_of_isSome (piiEntityLine text) result.Entities
      (fun entity hl => piiEntityLine_isSome text entity (h.2.2.2.2.1 s _ result hr entity hl))
    split
    · rfl
    · simp [h1]

theorem detectSyntax_aborted {σ : Type} (client : Client σ) (text : GoString) (s : σ)
    (h : WellFormed client) : (detectSyntax client text s).aborted = false := by
  simp only [detectSyntax]
  split
  · rfl
  · rename_i result hr
    have h1 := rangeLoop_of_isSome tokenLine (result.SyntaxTokens.take 5)
      (fun token hl => tokenLine_isSome token (h.2.2.2.2.2 s _ result hr token hl))
    simp [syntaxLoop_take, h1]

/-! ## The events of each operation, by outcome of its call -/

theorem detectLanguage_events_error {σ : Type} (client : Client σ) (text : GoString) (s : σ)
    (err : GoString) (h : (client.DetectDominantLanguage s { Text := text }).2 = .error err) :
    (detectLanguage client text s).events =
      [.print (Println (utf8 "🌍 Language Detection:")),
        .call (.DetectDominantLanguage { Text := text }) true,
        .print (utf8 "Error: " ++ err ++ utf8 "\n")] := by
  simp only [detectLanguage, h]
  rfl

theorem detectSentiment_events_error {σ : Type} (client : Client σ) (text : GoString) (s : σ)
    (err : GoString)
    (h : (client.DetectSentiment s { Text := text, LanguageCode := LanguageCodeEn }).2
      = .error err) :
    (detectSentiment client text s).events =
      [.print (Println (utf8 "😊 Sentiment Analysis:")),
        .call (.DetectSentiment { Text := text, LanguageCode := LanguageCodeEn }) true,
        .print (utf8 "Error: " ++ err ++ utf8 "\n")] := by
  simp only [detectSentiment, h]
  rfl

theorem detectEntities_events_error {σ : Type} (client : Client σ) (text : GoString) (s : σ)
    (err : GoString)
    (h : (client.DetectEntities s { Text := text, LanguageCode := LanguageCodeEn }).2
      = .error err) :
    (detectEntities client text s).events =
      [.print (Println (utf8 "🏷️  Entity Detection:")),
        .call (.DetectEntities { Text := text, LanguageCode := LanguageCodeEn }) true,
        .print (utf8 "Error: " ++ err ++ utf8 "\n")] := by
  simp only [detectEntities, h]
  rfl

theorem detectKeyPhrases_events_error {σ : Type} (client : Client σ) (text : GoString) (s : σ)
    (err : GoString)
    (h : (client.DetectKeyPhrases s { Text := text, LanguageCode := LanguageCodeEn }).2
      = .error err) :
    (detectKeyPhrases client text s).events =
      [.print (Println (utf8 "🔑 Key Phrases:")),
        .call (.DetectKeyPhrases { Text := text, LanguageCode := LanguageCodeEn }) true,
        .print (utf8 "Error: " ++ err ++ utf8 "\n")] := by
  simp only [detectKeyPhrases, h]
  rfl

theorem detectPII_events_error {σ : Type} (client : Client σ) (text : GoString) (s : σ)
    (err : GoString)
    (h : (client.DetectPiiEntities s { Text := text, LanguageCode := LanguageCodeEn }).2
      = .error err) :
    (detectPII client text s).events =
      [.print (Println (utf8 "🔒 PII Detection:")),
        .call (.DetectPiiEntities { Text := text, LanguageCode := LanguageCodeEn }) true,
        .print (utf8 "Error: " ++ err ++ utf8 "\n")] := by
  simp only [detectPII, h]
  rfl

theorem detectSyntax_events_error {σ : Type} (client : Client σ) (text : GoString) (s : σ)
    (err : GoString)
    (h : (client.DetectSyntax s { Text := text, LanguageCode := LanguageCodeEn }).2
      = .error err) :
    (detectSyntax client text s).events =
      [.print (Println (utf8 "📝 Syntax Analysis (First 5 tokens):")),
        .call (.DetectSyntax { Text := text, LanguageCode := LanguageCodeEn }) true,
        .print (utf8 "Error: " ++ err ++ utf8 "\n")] := by
  simp only [detectSyntax, h]
  rfl

theorem detectEntities_events_ok {σ : Type} (client : Client σ) (text : GoString) (s : σ)
    (result : DetectEntitiesOutput) (items : List (GoString × GoString × F32))
    (h : (client.DetectEntities s { Text := text, LanguageCode := LanguageCodeEn }).2
      = .ok result)
    (hi : result.Entities
      = items.map (fun it => { Type_ := it.1, Text := some it.2.1, Score := some it.2.2 })) :
    (detectEntities client text s).events =
        [.print (Println (utf8 "🏷️  Entity Detection:")),
          .call (.DetectEntities { Text := text, LanguageCode := LanguageCodeEn }) false]
        ++ ((if items.length = 0 then [Println (utf8 "  No entities found")]
             else items.map (fun it =>
                utf8 "  " ++ it.1 ++ utf8 ": \"" ++ it.2.1
                  ++ utf8 "\" (Confidence: " ++ pct it.2.2 ++ utf8 ")\n"))
            ++ [Println []]).map Event.print
      ∧ (detectEntities client text s).aborted = false := by
  have hloop := rangeLoop_map_some entityLine
    (fun it : GoString × GoString × F32 =>
      ({ Type_ := it.1, Text := some it.2.1, Score := some it.2.2 } : Entity))
    (fun it => utf8 "  " ++ it.1 ++ utf8 ": \"" ++ it.2.1
      ++ utf8 "\" (Confidence: " ++ pct it.2.2 ++ utf8 ")\n")
    items (fun _ _ => rfl)
  simp only [detectEntities, h, hi, hloop, List.length_map, Bool.false_eq_true, if_false]
  split <;> simp

/-- The events of `detectPII` after a successful call whose entities carry
offsets inside the text: the lines of the entities before the first one without
a score, where the run stops. -/
theorem detectPII_events_ok {σ : Type} (client : Client σ) (text : GoString) (s : σ)
    (result : DetectPiiEntitiesOutput)
    (h : (client.DetectPiiEntities s { Text := text, LanguageCode := LanguageCodeEn }).2
      = .ok result)
    (hr : ∀ entity ∈ result.Entities, entity.InRange text) :
    (detectPII client text s).events =
        [.print (Println (utf8 "🔒 PII Detection:")),
          .call (.DetectPiiEntities { Text := text, LanguageCode := LanguageCodeEn }) false]
        ++ (if result.Entities.length = 0 then
              [Println (utf8 "  No PII found"), Println []]
            else
              (result.Entities.takeWhile (fun entity => entity.Score.isSome)).map (fun entity =>
                piiLine entity.Type_
                  ((text.drop (entity.BeginOffset.getD 0).toNat).take
                    ((entity.EndOffset.getD 0).toNat - (entity.BeginOffset.getD 0).toNat))
                  (entity.Score.getD .nan))
              ++ (if result.Entities.all (fun entity => entity.Score.isSome) then [Println []]
                  else [])).map Event.print
      ∧ (detectPII client text s).aborted
          = (!(result.Entities.all (fun entity => entity.Score.isSome))) := by
  have hloop := rangeLoop_takeWhile (piiEntityLine text) (fun entity => entity.Score.isSome)
    (fun entity => piiLine entity.Type_
      ((text.drop (entity.BeginOffset.getD 0).toNat).take
        ((entity.EndOffset.getD 0).toNat - (entity.BeginOffset.getD 0).toNat))
      (entity.Score.getD .nan))
    result.Entities (fun entity he => piiEntityLine_of_inRange text entity (hr entity he))
  simp only [detectPII, h, hloop]
  split
  · rename_i h0
    have hnil : result.Entities = [] := List.length_eq_zero.mp h0
    simp [hnil]
  · cases hall : result.Entities.all (fun entity => entity.Score.isSome) <;> simp

theorem detectSyntax_events_ok {σ : Type} (client : Client σ) (text : GoString) (s : σ)
    (result : DetectSyntaxOutput) (shown : List (GoString × GoString))
    (h : (client.DetectSyntax s { Text := text, LanguageCode := LanguageCodeEn }).2 = .ok result)
    (hi : result.SyntaxTokens.take 5
      = shown.map (fun it => { Text := some it.1, PartOfSpeech := some { Tag := it.2 } })) :
    (detectSyntax client text s).events =
        [.print (Println (utf8 "📝 Syntax Analysis (First 5 tokens):")),
          .call (.DetectSyntax { Text := text, LanguageCode := LanguageCodeEn }) false]
        ++ ((shown.map (fun it => utf8 "  \"" ++ it.1 ++ utf8 "\" -> " ++ it.2 ++ utf8 "\n"))
            ++ (if 5 < result.SyntaxTokens.length then
                  [utf8 "  ... and " ++ fmtInt ((result.SyntaxTokens.length : Int) - 5)
                    ++ utf8 " more tokens\n"]
                else [])
            ++ [Println []]).map Event.print
      ∧ (detectSyntax client text s).aborted = false := by
  have hloop := rangeLoop_map_some tokenLine
    (fun it : GoString × GoString =>
      ({ Text := some it.1, PartOfSpeech := some { Tag := it.2 } } : SyntaxToken))
    (fun it => utf8 "  \"" ++ it.1 ++ utf8 "\" -> " ++ it.2 ++ utf8 "\n")
    shown (fun _ _ => rfl)
  simp only [detectSyntax, h, syntaxLoop_take, hi, hloop, Bool.false_eq_true, if_false]
  split <;> simp

/-! ## Failed calls never stop the run -/

theorem isolated_weaken {σ : Type} {first : Option (Op × GoString)} {k : σ → Res σ}
    (h : IsolatedFrom first k) : IsolatedFrom none k := by
  intro s
  refine ⟨(h s).1, ?_⟩
  intro o t ho
  simp at ho

theorem isolated_say {σ : Type} {first : Option (Op × GoString)} {k : σ → Res σ}
    (lines : List GoString) (h : IsolatedFrom first k) :
    IsolatedFrom first (fun s => (Res.say s lines).andThen k) := by
  intro s
  have hlog : callLog ((Res.say s lines).andThen k).events = callLog (k s).events := by
    simp [Res.andThen_events, Res.say, callLog_append, callLog_say]
  rw [hlog]
  exact h s

theorem isolated_op {σ : Type} {f : σ → Res σ} {req : Request} {k : σ → Res σ}
    (hop : IsOp f req)
    (hk : IsolatedFrom (req.op.next.map (fun o => (o, req.Text))) k) :
    IsolatedFrom (some (req.op, req.Text)) (fun s => (f s).andThen k) := by
  intro s
  obtain ⟨b, hlog, hb⟩ := hop s
  have hlog2 : callLog ((f s).andThen k).events
      = (req, b) :: (if (f s).aborted then [] else callLog (k (f s).remote).events) := by
    rw [Res.andThen_events, callLog_append, hlog]
    cases (f s).aborted <;> rfl
  rw [hlog2]
  refine ⟨⟨?_, ?_⟩, ?_⟩
  · intro hfail o ho
    have hna : (f s).aborted = false := by
      cases ha : (f s).aborted
      · rfl
      · have := hb ha
        rw [this] at hfail
        simp at hfail
    rw [hna]
    exact (hk (f s).remote).2 o req.Text (by simp [ho])
  · cases (f s).aborted
    · exact (hk (f s).remote).1
    · trivial
  · intro o t ho
    refine ⟨(req, b), rfl, ?_⟩
    simp at ho
    exact ⟨ho.1, ho.2⟩

theorem mainLoop_isolated {σ : Type} (client : Client σ) (texts : List GoString) (i : Nat) :
    IsolatedFrom none (mainLoop client texts i) := by
  induction texts generalizing i with
  | nil =>
    intro s
    refine ⟨trivial, ?_⟩
    intro o t ho
    simp at ho
  | cons text rest ih =>
    have h := isolated_say
      [utf8 "📝 Sample Text " ++ fmtInt ((i : Int) + 1) ++ utf8 ":\n" ++ text ++ utf8 "\n\n"]
      (isolated_weaken
        (isolated_op (detectLanguage_isOp client text)
          (isolated_op (detectSentiment_isOp client text)
            (isolated_op (detectEntities_isOp client text)
              (isolated_op (detectKeyPhrases_isOp client text)
                (isolated_op (detectPII_isOp client text)
                  (isolated_op (detectSyntax_isOp client text)
                    (isolated_say [Println (utf8 "----------------------------------------\n")]
                      (ih (i + 1))))))))))
    intro s
    have hs := h s
    simp only [mainLoop, loopBody, Res.andThen_assoc]
    exact hs

theorem main_failureIsolated {σ : Type} (client : Client σ) (s : σ) :
    FailureIsolated (callLog (main client s).events) :=
  (isolated_say _ (mainLoop_isolated client sampleTexts 0) s).1

/-! ## The requests of a run with well-formed responses -/

theorem calls_say_step {σ : Type} {reqs : List Request} {k : σ → Res σ}
    (lines : List GoString) (h : CallsFrom reqs k) :
    CallsFrom reqs (fun s => (Res.say s lines).andThen k) := by
  intro s
  obtain ⟨h1, h2⟩ := h s
  constructor
  · simp [Res.andThen_aborted, Res.say, h1]
  · simp [Res.andThen_events, Res.say, calls_append, calls_eq_map_callLog (List.map _ _),
      callLog_say, h2]

theorem calls_op_step {σ : Type} {f : σ → Res σ} {req : Request} {reqs : List Request}
    {k : σ → Res σ} (hop : IsOp f req) (ha : ∀ s, (f s).aborted = false)
    (h : CallsFrom reqs k) : CallsFrom (req :: reqs) (fun s => (f s).andThen k) := by
  intro s
  obtain ⟨b, hlog, -⟩ := hop s
  obtain ⟨h1, h2⟩ := h (f s).remote
  constructor
  · simp [Res.andThen_aborted, ha s, h1]
  · simp [Res.andThen_events, ha s, calls_append, h2, calls_eq_map_callLog (f s).events, hlog]

theorem mainLoop_ok {σ : Type} (client : Client σ) (h : WellFormed client)
    (texts : List GoString) (i : Nat) :
    CallsFrom (texts.flatMap requestsFor) (mainLoop client texts i) := by
  induction texts generalizing i with
  | nil =>
    intro s
    exact ⟨rfl, rfl⟩
  | cons text rest ih =>
    have hc := calls_say_step
      [utf8 "📝 Sample Text " ++ fmtInt ((i : Int) + 1) ++ utf8 ":\n" ++ text ++ utf8 "\n\n"]
      (calls_op_step (detectLanguage_isOp client text)
        (fun s => detectLanguage_aborted client text s h.1)
        (calls_op_step (detectSentiment_isOp client text)
          (fun s => detectSentiment_aborted client text s h)
          (calls_op_step (detectEntities_isOp client text)
            (fun s => detectEntities_aborted client text s h)
            (calls_op_step (detectKeyPhrases_isOp client text)
              (fun s => detectKeyPhrases_aborted client text s h)
              (calls_op_step (detectPII_isOp client text)
                (fun s => detectPII_aborted client text s h)
                (calls_op_step (detectSyntax_isOp client text)
                  (fun s => detectSyntax_aborted client text s h)
                  (calls_say_step [Println (utf8 "----------------------------------------\n")]
                    (ih (i + 1)))))))))
    intro s
    have hs := hc s
    simp only [mainLoop, loopBody, Res.andThen_assoc]
    exact hs

theorem main_ok {σ : Type} (client : Client σ) (h : WellFormed client) (s : σ) :
    (main client s).aborted = false
      ∧ calls (main client s).events = sampleTexts.flatMap requestsFor :=
  calls_say_step _ (mainLoop_ok client h sampleTexts 0) s

theorem map_op_text_requestsFor (texts : List GoString) :
    (texts.flatMap requestsFor).map (fun r => (r.op, r.Text)) = texts.flatMap sixOperations := by
  induction texts with
  | nil => rfl
  | cons text rest ih =>
    rw [List.flatMap_cons, List.flatMap_cons, List.map_append, ih]
    rfl


/-! ## Requests do not depend on what language detection answers -/

theorem SameRequests.andThen {σ : Type} {r r2 : Res σ} {f f2 : σ → Res σ}
    (h : SameRequests r r2) (hf : ∀ s, SameRequests (f s) (f2 s)) :
    SameRequests (r.andThen f) (r2.andThen f2) := by
  obtain ⟨h1, h2, h3⟩ := h
  obtain ⟨g1, g2, g3⟩ := hf r2.remote
  refine ⟨?_, ?_, ?_⟩
  · simp [Res.andThen_remote, h1, h2, g1]
  · simp [Res.andThen_aborted, h1, h2, g2]
  · simp only [Res.andThen_events, calls_append, h1, h2, h3]
    cases r2.aborted <;> simp [g3]

theorem SameRequests.refl {σ : Type} (r : Res σ) : SameRequests r r := ⟨rfl, rfl, rfl⟩

theorem detectLanguage_remote {σ : Type} (client : Client σ) (text : GoString) (s : σ) :
    (detectLanguage client text s).remote = (client.DetectDominantLanguage s { Text := text }).1 := by
  simp only [detectLanguage]
  split
  · rfl
  · split <;> rfl

theorem detectLanguage_sameRequests {σ : Type} (client : Client σ)
    (f : σ → DetectDominantLanguageInput → σ × Except GoString DetectDominantLanguageOutput)
    (hf : ∀ s input, (f s input).1 = (client.DetectDominantLanguage s input).1)
    (hc : LanguagesComplete client)
    (hc2 : LanguagesComplete { client with DetectDominantLanguage := f })
    (text : GoString) (s : σ) :
    SameRequests (detectLanguage { client with DetectDominantLanguage := f } text s)
      (detectLanguage client text s) := by
  refine ⟨?_, ?_, ?_⟩
  · rw [detectLanguage_remote, detectLanguage_remote]
    exact hf s _
  · rw [detectLanguage_aborted _ text s hc, detectLanguage_aborted _ text s hc2]
  · rw [calls_eq_map_callLog, calls_eq_map_callLog, detectLanguage_callLog,
      detectLanguage_callLog]
    rfl

theorem loopBody_sameRequests {σ : Type} (client : Client σ)
    (f : σ → DetectDominantLanguageInput → σ × Except GoString DetectDominantLanguageOutput)
    (hf : ∀ s input, (f s input).1 = (client.DetectDominantLanguage s input).1)
    (hc : LanguagesComplete client)
    (hc2 : LanguagesComplete { client with DetectDominantLanguage := f })
    (i : Nat) (text : GoString) (s : σ) :
    SameRequests (loopBody { client with DetectDominantLanguage := f } i text s)
      (loopBody client i text s) := by
  unfold loopBody
  refine SameRequests.andThen (SameRequests.andThen (SameRequests.andThen (SameRequests.andThen
    (SameRequests.andThen (SameRequests.andThen (SameRequests.andThen (SameRequests.refl _)
      ?_) ?_) ?_) ?_) ?_) ?_) ?_
  · exact fun s => detectLanguage_sameRequests client f hf hc hc2 text s
  all_goals exact fun s => SameRequests.refl _

theorem mainLoop_sameRequests {σ : Type} (client : Client σ)
    (f : σ → DetectDominantLanguageInput → σ × Except GoString DetectDominantLanguageOutput)
    (hf : ∀ s input, (f s input).1 = (client.DetectDominantLanguage s input).1)
    (hc : LanguagesComplete client)
    (hc2 : LanguagesComplete { client with DetectDominantLanguage := f })
    (texts : List GoString) (i : Nat) (s : σ) :
    SameRequests (mainLoop { client with DetectDominantLanguage := f } texts i s)
      (mainLoop client texts i s) := by
  induction texts generalizing i s with
  | nil => exact SameRequests.refl _
  | cons text rest ih =>
    exact SameRequests.andThen (loopBody_sameRequests client f hf hc hc2 i text s)
      (fun s => ih (i + 1) s)

theorem main_sameRequests {σ : Type} (client : Client σ)
    (f : σ → DetectDominantLanguageInput → σ × Except GoString DetectDominantLanguageOutput)
    (hf : ∀ s input, (f s input).1 = (client.DetectDominantLanguage s input).1)
    (hc : LanguagesComplete client)
    (hc2 : LanguagesComplete { client with DetectDominantLanguage := f }) (s : σ) :
    SameRequests (main { client with DetectDominantLanguage := f } s) (main client s) :=
  SameRequests.andThen (SameRequests.refl _)
    (fun s => mainLoop_sameRequests client f hf hc hc2 _ _ s)

/-! ## The last line of a run that was not stopped -/

theorem andThen_say_last {σ : Type} (r : Res σ) (line : GoString)
    (h : (r.andThen (fun s => Res.say s [line])).aborted = false) :
    (prints (r.andThen (fun s => Res.say s [line])).events).getLast? = some line := by
  have hr : r.aborted = false := by
    rw [Res.andThen_aborted] at h
    cases hh : r.aborted
    · rfl
    · rw [hh] at h; simp at h
  simp [Res.andThen_events, hr, Res.say, prints_append, prints]

theorem loopBody_last {σ : Type} (client : Client σ) (i : Nat) (text : GoString) (s : σ)
    (h : (loopBody client i text s).aborted = false) :
    (prints (loopBody client i text s).events).getLast? = some separator :=
  andThen_say_last _ _ h

theorem mainLoop_last {σ : Type} (client : Client σ) (texts : List GoString) (i : Nat) (s : σ)
    (hne : texts ≠ []) (h : (mainLoop client texts i s).aborted = false) :
    (prints (mainLoop client texts i s).events).getLast? = some separator := by
  induction texts generalizing i s with
  | nil => exact absurd rfl hne
  | cons text rest ih =>
    simp only [mainLoop, Res.andThen_aborted, Bool.or_eq_false_iff] at h
    obtain ⟨h1, h2⟩ := h
    have hb := loopBody_last client i text s h1
    simp only [mainLoop, Res.andThen_events, h1, Bool.false_eq_true, if_false, prints_append,
      List.getLast?_append]
    cases rest with
    | nil => simp [mainLoop, Res.say, prints, hb]
    | cons t2 rest2 =>
      rw [ih (i + 1) _ (by simp) h2]
      rfl

theorem main_last {σ : Type} (client : Client σ) (s : σ) (h : (main client s).aborted = false) :
    (prints (main client s).events).getLast? = some separator := by
  simp only [main, Res.andThen_aborted, Bool.or_eq_false_iff] at h
  have h2 := mainLoop_last client sampleTexts 0 _ (by simp [sampleTexts]) h.2
  simp only [main, Res.andThen_events, h.1, Bool.false_eq_true, if_false, prints_append,
    List.getLast?_append, h2]
  rfl


/-! ## Slices and positions -/

theorem take_drop_eq_between {α : Type} (l : List α) (lo n : Nat) :
    (l.drop lo).take n = (List.range' lo n).filterMap (fun k => l[k]?) := by
  induction n generalizing lo with
  | zero => simp
  | succ n ih =>
    by_cases h : lo < l.length
    · rw [List.drop_eq_getElem_cons h, List.take_succ_cons, ih (lo + 1), List.range'_succ,
        List.filterMap_cons, List.getElem?_eq_getElem h]
    · have h1 : l.drop lo = [] := List.drop_eq_nil_of_le (by omega)
      have h2 : l.drop (lo + 1) = [] := List.drop_eq_nil_of_le (by omega)
      have h3 := ih (lo + 1)
      rw [h2, List.take_nil] at h3
      rw [h1, List.take_nil, List.range'_succ, List.filterMap_cons,
        List.getElem?_eq_none (by omega), ← h3]

theorem slice_eq_between (text : GoString) (lo hi : Int) :
    (text.drop lo.toNat).take (hi.toNat - lo.toNat) = between text lo.toNat hi.toNat :=
  take_drop_eq_between text lo.toNat (hi.toNat - lo.toNat)

theorem between_map {α β : Type} (f : α → β) (l : List α) (lo hi : Nat) :
    between (l.map f) lo hi = (between l lo hi).map f := by
  unfold between
  rw [List.map_filterMap]
  congr 1
  funext k
  simp [List.getElem?_map]

theorem between_subset {α : Type} (l : List α) (lo hi : Nat) (x : α)
    (h : x ∈ between l lo hi) : x ∈ l := by
  unfold between at h
  rw [List.mem_filterMap] at h
  obtain ⟨k, -, hk⟩ := h
  exact List.getElem?_mem hk

/-- An ASCII character is encoded as the single byte of its code. -/
theorem utf8_of_ascii (cs : List Char) (h : ∀ c ∈ cs, c.val ≤ 127) :
    utf8 ⟨cs⟩ = cs.map (fun c => c.val.toUInt8) := by
  induction cs with
  | nil => rfl
  | cons c rest ih =>
    have hc : c.val ≤ 127 := h c (List.mem_cons_self _ _)
    have h2 := ih (fun d hd => h d (List.mem_cons_of_mem _ hd))
    simp only [utf8] at h2 ⊢
    simp only [List.flatMap_cons, List.map_cons, h2, String.utf8EncodeChar, hc, if_true]
    rfl


/-! ## A rendered entity is not the "nothing found" message -/

theorem entityLine_ne_noEntities (type_ text : GoString) (score : F32) :
    utf8 "  " ++ type_ ++ utf8 ": \"" ++ text ++ utf8 "\" (Confidence: " ++ pct score ++ utf8 ")\n"
      ≠ Println (utf8 "  No entities found") := by
  intro h
  have h1 := congrArg (fun l => l.reverse.take 2) h
  simp only [List.reverse_append] at h1
  have h2 : (utf8 ")\n").reverse = [10, 41] := by decide
  have h3 : (Println (utf8 "  No entities found")).reverse.take 2 = [10, 100] := by decide
  rw [h2, h3] at h1
  simp at h1


/-! ## The claims -/

/-- C6: when the remote call of an operation fails with error `err`, the
operation prints its header and then exactly one line `Error: <err>`; nothing
else is printed for it, and it returns normally. -/
theorem failed_call_prints_header_and_error {σ : Type} (client : Client σ) (text : GoString)
    (s : σ) (err : GoString) :
    ((client.DetectDominantLanguage s { Text := text }).2 = .error err →
        prints (detectLanguage client text s).events =
            [Println (utf8 "🌍 Language Detection:"), utf8 "Error: " ++ err ++ utf8 "\n"]
          ∧ (detectLanguage client text s).aborted = false)
    ∧ ((client.DetectSentiment s { Text := text, LanguageCode := LanguageCodeEn }).2 = .error err →
        prints (detectSentiment client text s).events =
            [Println (utf8 "😊 Sentiment Analysis:"), utf8 "Error: " ++ err ++ utf8 "\n"]
          ∧ (detectSentiment client text s).aborted = false)
    ∧ ((client.DetectEntities s { Text := text, LanguageCode := LanguageCodeEn }).2 = .error err →
        prints (detectEntities client text s).events =
            [Println (utf8 "🏷️  Entity Detection:"), utf8 "Error: " ++ err ++ utf8 "\n"]
          ∧ (detectEntities client text s).aborted = false)
    ∧ ((client.DetectKeyPhrases s { Text := text, LanguageCode := LanguageCodeEn }).2 = .error err →
        prints (detectKeyPhrases client text s).events =
            [Println (utf8 "🔑 Key Phrases:"), utf8 "Error: " ++ err ++ utf8 "\n"]
          ∧ (detectKeyPhrases client text s).aborted = false)
    ∧ ((client.DetectPiiEntities s { Text := text, LanguageCode := LanguageCodeEn }).2
          = .error err →
        prints (detectPII client text s).events =
            [Println (utf8 "🔒 PII Detection:"), utf8 "Error: " ++ err ++ utf8 "\n"]
          ∧ (detectPII client text s).aborted = false)
    ∧ ((client.DetectSyntax s { Text := text, LanguageCode := LanguageCodeEn }).2 = .error err →
        prints (detectSyntax client text s).events =
            [Println (utf8 "📝 Syntax Analysis (First 5 tokens):"),
              utf8 "Error: " ++ err ++ utf8 "\n"]
          ∧ (detectSyntax client text s).aborted = false) := by
  refine ⟨?_, ?_, ?_, ?_, ?_, ?_⟩
  · intro h
    refine ⟨by rw [detectLanguage_events_error client text s err h]; rfl, ?_⟩
    simp only [detectLanguage, h]
  · intro h
    refine ⟨by rw [detectSentiment_events_error client text s err h]; rfl, ?_⟩
    simp only [detectSentiment, h]
  · intro h
    refine ⟨by rw [detectEntities_events_error client text s err h]; rfl, ?_⟩
    simp only [detectEntities, h]
  · intro h
    refine ⟨by rw [detectKeyPhrases_events_error client text s err h]; rfl, ?_⟩
    simp only [detectKeyPhrases, h]
  · intro h
    refine ⟨by rw [detectPII_events_error client text s err h]; rfl, ?_⟩
    simp only [detectPII, h]
  · intro h
    refine ⟨by rw [detectSyntax_events_error client text s err h]; rfl, ?_⟩
    simp only [detectSyntax, h]

/-- C6 at a throttled client, for key-phrase extraction on the first sample text. -/
theorem failed_call_prints_header_and_error_witness :
    prints (detectKeyPhrases throttled
        (utf8 "I love this new product! It's absolutely amazing and works perfectly. John Smith from New York called me at 555-123-4567.")
        ()).events =
      [Println (utf8 "🔑 Key Phrases:"),
        utf8 "Error: " ++ utf8 "ThrottlingException: Rate exceeded" ++ utf8 "\n"]
    ∧ (detectKeyPhrases throttled
        (utf8 "I love this new product! It's absolutely amazing and works perfectly. John Smith from New York called me at 555-123-4567.")
        ()).aborted = false :=
  (failed_call_prints_header_and_error throttled _ () _).2.2.2.1 rfl

/-- C2 (the code at the failing input): after a successful call with an empty
result, language detection and syntax analysis print their header and a blank
line only, while the three other list operations print their message. -/
theorem empty_result_without_message :
    prints (detectLanguage silent (utf8 "Hola") ()).events
        = [utf8 "🌍 Language Detection:\n", utf8 "\n"]
      ∧ prints (detectSyntax silent (utf8 "Hola") ()).events
        = [utf8 "📝 Syntax Analysis (First 5 tokens):\n", utf8 "\n"]
      ∧ prints (detectEntities silent (utf8 "Hola") ()).events
        = [utf8 "🏷️  Entity Detection:\n", utf8 "  No entities found\n", utf8 "\n"]
      ∧ prints (detectKeyPhrases silent (utf8 "Hola") ()).events
        = [utf8 "🔑 Key Phrases:\n", utf8 "  No key phrases found\n", utf8 "\n"]
      ∧ prints (detectPII silent (utf8 "Hola") ()).events
        = [utf8 "🔒 PII Detection:\n", utf8 "  No PII found\n", utf8 "\n"] := by
  decide


/-- C10 (amended): after a successful entity detection, `detectEntities`
prints its header, then the line `No entities found` alone when there is no
entity; when there are entities and each carries its text and its score, it
prints one line per entity in response order and no `No entities found` line;
a blank line ends the block. -/
theorem detectEntities_lines {σ : Type} (client : Client σ) (text : GoString) (s : σ)
    (result : DetectEntitiesOutput) (items : List (GoString × GoString × F32))
    (h : (client.DetectEntities s { Text := text, LanguageCode := LanguageCodeEn }).2
      = .ok result)
    (hi : result.Entities
      = items.map (fun it => { Type_ := it.1, Text := some it.2.1, Score := some it.2.2 })) :
    (result.Entities = [] →
        prints (detectEntities client text s).events =
          [Println (utf8 "🏷️  Entity Detection:"), Println (utf8 "  No entities found"),
            Println []])
    ∧ (result.Entities ≠ [] →
        prints (detectEntities client text s).events =
            Println (utf8 "🏷️  Entity Detection:")
              :: (items.map (fun it =>
                    utf8 "  " ++ it.1 ++ utf8 ": \"" ++ it.2.1
                      ++ utf8 "\" (Confidence: " ++ pct it.2.2 ++ utf8 ")\n")
                  ++ [Println []])
          ∧ Println (utf8 "  No entities found") ∉ prints (detectEntities client text s).events)
    ∧ (detectEntities client text s).aborted = false := by
  obtain ⟨hev, ha⟩ := detectEntities_events_ok client text s result items h hi
  refine ⟨?_, ?_, ha⟩
  · intro he
    have h0 : items = [] := by
      rw [he] at hi
      exact List.map_eq_nil_iff.mp hi.symm
    rw [hev, prints_append, prints_say, h0]
    rfl
  · intro he
    have hlen : ¬ items.length = 0 := by
      intro h0
      rw [List.length_eq_zero.mp h0] at hi
      exact he hi
    have hp : prints (detectEntities client text s).events =
        Println (utf8 "🏷️  Entity Detection:")
          :: (items.map (fun it =>
                utf8 "  " ++ it.1 ++ utf8 ": \"" ++ it.2.1
                  ++ utf8 "\" (Confidence: " ++ pct it.2.2 ++ utf8 ")\n")
              ++ [Println []]) := by
      rw [hev, prints_append, prints_say, if_neg hlen]
      rfl
    refine ⟨hp, ?_⟩
    rw [hp]
    intro hmem
    rcases List.mem_cons.mp hmem with h1 | h1
    · exact absurd h1 (by decide)
    · rcases List.mem_append.mp h1 with h2 | h2
      · obtain ⟨it, -, heq⟩ := List.mem_map.mp h2
        exact entityLine_ne_noEntities _ _ _ heq
      · rw [List.mem_singleton] at h2
        exact absurd h2 (by decide)

/-- C10 (amended) at a response with one entity. -/
theorem detectEntities_lines_witness :
    prints (detectEntities findsPerson (utf8 "John Smith from New York") ()).events =
      [utf8 "🏷️  Entity Detection:\n", utf8 "  PERSON: \"John Smith\" (Confidence: 95.34%)\n",
        utf8 "\n"] :=
  (((detectEntities_lines findsPerson (utf8 "John Smith from New York") () _
    [(utf8 "PERSON", utf8 "John Smith", F32.ofDecimal 9534 4)] rfl rfl).2.1
    (by decide)).1).trans (by decide)

/-- C10 as stated fails: when the second of two entities comes without its
score, `detectEntities` prints the header and the line of the first entity and
the run stops there: two entities, one line, no blank line. -/
theorem detectEntities_stops_without_score :
    prints (detectEntities placeWithoutScore (utf8 "John Smith from New York") ()).events =
        [utf8 "🏷️  Entity Detection:\n", utf8 "  PERSON: \"John Smith\" (Confidence: 95.34%)\n"]
      ∧ (detectEntities placeWithoutScore (utf8 "John Smith from New York") ()).aborted = true := by
  decide

/-- C5 (amended): after a successful syntax analysis with `n` tokens of which
the first `min 5 n` each carry their text and part of speech, `detectSyntax`
prints the lines of these first `min 5 n` tokens in response order, then a
summary line exactly when `n > 5`, which states `n - 5` more tokens. -/
theorem detectSyntax_lines {σ : Type} (client : Client σ) (text : GoString) (s : σ)
    (result : DetectSyntaxOutput) (shown : List (GoString × GoString))
    (h : (client.DetectSyntax s { Text := text, LanguageCode := LanguageCodeEn }).2 = .ok result)
    (hi : result.SyntaxTokens.take 5
      = shown.map (fun it => { Text := some it.1, PartOfSpeech := some { Tag := it.2 } })) :
    prints (detectSyntax client text s).events =
        Println (utf8 "📝 Syntax Analysis (First 5 tokens):")
          :: (shown.map (fun it => utf8 "  \"" ++ it.1 ++ utf8 "\" -> " ++ it.2 ++ utf8 "\n")
              ++ (if 5 < result.SyntaxTokens.length then
                    [utf8 "  ... and " ++ fmtInt ((result.SyntaxTokens.length : Int) - 5)
                      ++ utf8 " more tokens\n"]
                  else [])
              ++ [Println []])
      ∧ shown.length = min 5 result.SyntaxTokens.length
      ∧ (detectSyntax client text s).aborted = false := by
  obtain ⟨hev, ha⟩ := detectSyntax_events_ok client text s result shown h hi
  refine ⟨?_, ?_, ha⟩
  · rw [hev, prints_append, prints_say]
    rfl
  · have hl := congrArg List.length hi
    rw [List.length_take, List.length_map] at hl
    exact hl.symm

/-- C5 (amended) at a response with seven tokens: five token lines and `2 more tokens`. -/
theorem detectSyntax_lines_witness :
    prints (detectSyntax sevenTokens (utf8 "The weather today is nice. My") ()).events =
      [utf8 "📝 Syntax Analysis (First 5 tokens):\n",
        utf8 "  \"The\" -> DET\n", utf8 "  \"weather\" -> NOUN\n", utf8 "  \"today\" -> NOUN\n",
        utf8 "  \"is\" -> VERB\n", utf8 "  \"nice\" -> ADJ\n",
        utf8 "  ... and 2 more tokens\n", utf8 "\n"] :=
  ((detectSyntax_lines sevenTokens (utf8 "The weather today is nice. My") () _
    [(utf8 "The", utf8 "DET"), (utf8 "weather", utf8 "NOUN"), (utf8 "today", utf8 "NOUN"),
      (utf8 "is", utf8 "VERB"), (utf8 "nice", utf8 "ADJ")] rfl rfl).1).trans
    (by decide)

/-- C5 as stated fails: when the second of two tokens comes without its text,
`detectSyntax` prints the header and the line of the first token and the run
stops there: two tokens, one token line. -/
theorem detectSyntax_stops_without_text :
    prints (detectSyntax tokenWithoutText (utf8 "Hola.") ()).events =
        [utf8 "📝 Syntax Analysis (First 5 tokens):\n", utf8 "  \"Hola\" -> INTJ\n"]
      ∧ (detectSyntax tokenWithoutText (utf8 "Hola.") ()).aborted = true := by
  decide

/-- C4 (amended): after a successful PII detection whose entities each carry
their score and offsets with `0 <= begin <= end <= len(text)`, `detectPII`
prints its header, one line per entity in response order (the line
`No PII found` when there is none), and a blank line; the substring quoted on
the line of an entity consists of the bytes of the input text at positions
`begin`, ..., `end - 1`. -/
theorem detectPII_lines {σ : Type} (client : Client σ) (text : GoString) (s : σ)
    (result : DetectPiiEntitiesOutput) (items : List (GoString × Int × Int × F32))
    (h : (client.DetectPiiEntities s { Text := text, LanguageCode := LanguageCodeEn }).2
      = .ok result)
    (hi : result.Entities = items.map (fun it =>
      { Type_ := it.1, BeginOffset := some it.2.1, EndOffset := some it.2.2.1, Score := some it.2.2.2 }))
    (hr : ∀ it ∈ items, 0 ≤ it.2.1 ∧ it.2.1 ≤ it.2.2.1 ∧ it.2.2.1 ≤ (text.length : Int)) :
    prints (detectPII client text s).events =
        Println (utf8 "🔒 PII Detection:")
          :: ((if items.length = 0 then [Println (utf8 "  No PII found")]
               else items.map (fun it =>
                  utf8 "  " ++ it.1 ++ utf8 ": \""
                    ++ between text it.2.1.toNat it.2.2.1.toNat
                    ++ utf8 "\" (Confidence: " ++ pct it.2.2.2 ++ utf8 ")\n"))
              ++ [Println []])
      ∧ (detectPII client text s).aborted = false := by
  have hloop := rangeLoop_map_some (piiEntityLine text)
    (fun it : GoString × Int × Int × F32 =>
      ({ Type_ := it.1, BeginOffset := some it.2.1, EndOffset := some it.2.2.1, Score := some it.2.2.2 } : PiiEntity))
    (fun it => utf8 "  " ++ it.1 ++ utf8 ": \"" ++ between text it.2.1.toNat it.2.2.1.toNat
      ++ utf8 "\" (Confidence: " ++ pct it.2.2.2 ++ utf8 ")\n")
    items (fun it hit => by
      simp only [piiEntityLine, slice_of_inRange text _ _ (hr it hit), slice_eq_between, piiLine])
  simp only [detectPII, h, hi, hloop, List.length_map, Bool.false_eq_true, if_false]
  split
  · exact ⟨rfl, rfl⟩
  · refine ⟨?_, rfl⟩
    simp only [prints_append, prints_say]
    rfl

/-- C4 (amended) at a response that locates a number at positions 10 to 21. -/
theorem detectPII_lines_witness :
    prints (detectPII findsNumber (utf8 "My SSN is 123-45-6789.") ()).events =
      [utf8 "🔒 PII Detection:\n", utf8 "  SSN: \"123-45-6789\" (Confidence: 99.00%)\n",
        utf8 "\n"] :=
  ((detectPII_lines findsNumber (utf8 "My SSN is 123-45-6789.") () _
    [(utf8 "SSN", 10, 21, F32.ofDecimal 99 2)] rfl rfl (by decide)).1).trans (by decide)

/-- C4 as stated fails: for an entity whose offsets 10 and 21 lie inside the
text but which comes without its score, `detectPII` prints the header only and
the run stops: one entity, no line. -/
theorem detectPII_stops_without_score :
    prints (detectPII findsNumberWithoutScore (utf8 "My SSN is 123-45-6789.") ()).events =
        [utf8 "🔒 PII Detection:\n"]
      ∧ (detectPII findsNumberWithoutScore (utf8 "My SSN is 123-45-6789.") ()).aborted = true := by
  decide


theorem keyPhrasesThrottled_wellFormed : WellFormed keyPhrasesThrottled := by
  refine ⟨?_, ?_, ?_, ?_, ?_, ?_⟩
  · intro s input result h lang hl
    injection h with h1
    rw [← h1] at hl
    cases hl
  · intro s input result h
    injection h with h1
    rw [← h1]
    exact ⟨_, rfl, rfl, rfl, rfl, rfl⟩
  · intro s input result h entity hl
    injection h with h1
    rw [← h1] at hl
    cases hl
  · intro s input result h
    cases h
  · intro s input result h entity hl
    injection h with h1
    rw [← h1, List.mem_singleton] at hl
    subst hl
    exact ⟨⟨0, (input.Text.length : Int), rfl, rfl, Int.le_refl _, Int.ofNat_nonneg _,
      Int.le_refl _⟩, rfl⟩
  · intro s input result h token hl
    injection h with h1
    rw [← h1] at hl
    cases hl

/-- C1 (amended): for every client whose successful responses carry the
fields the program reads, with PII offsets such that
`0 <= begin <= end <= len(text)`, `main` returns normally and issues, for every
sample text in turn, exactly the six requests language, sentiment, entities,
key phrases, PII, syntax on that text; and for every client whatsoever, a
failed call for an operation on a text is directly followed by the call for
the next operation on the same text. -/
theorem main_six_operations_per_text {σ : Type} (client : Client σ) (s : σ) :
    (WellFormed client →
        (main client s).aborted = false
          ∧ (calls (main client s).events).map (fun r => (r.op, r.Text))
              = sampleTexts.flatMap sixOperations)
    ∧ FailureIsolated (callLog (main client s).events) := by
  refine ⟨?_, main_failureIsolated client s⟩
  intro h
  obtain ⟨ha, hc⟩ := main_ok client h s
  exact ⟨ha, by rw [hc, map_op_text_requestsFor]⟩

set_option maxRecDepth 100000 in
/-- C1 (amended) at a client whose key-phrase extraction always fails: the six
operations run on each text, and PII detection is called right after each
failed call. -/
theorem main_six_operations_per_text_witness :
    ((main keyPhrasesThrottled ()).aborted = false
      ∧ (calls (main keyPhrasesThrottled ()).events).map (fun r => (r.op, r.Text))
          = sampleTexts.flatMap sixOperations)
    ∧ (callLog (main keyPhrasesThrottled ()).events).map (fun c => (c.1.op, c.2))
        = [(.language, false), (.sentiment, false), (.entities, false), (.keyPhrases, true),
            (.pii, false), (.syntaxTokens, false),
           (.language, false), (.sentiment, false), (.entities, false), (.keyPhrases, true),
            (.pii, false), (.syntaxTokens, false),
           (.language, false), (.sentiment, false), (.entities, false), (.keyPhrases, true),
            (.pii, false), (.syntaxTokens, false)] :=
  ⟨(main_six_operations_per_text keyPhrasesThrottled ()).1 keyPhrasesThrottled_wellFormed,
    by decide⟩

set_option maxRecDepth 100000 in
/-- C1 as stated fails: when the PII call on the first text succeeds with an
entity whose end offset precedes its begin offset, the run stops there and the
syntax operation is not invoked on that text (nor anything on the other texts). -/
theorem main_skips_operations_after_bad_offsets :
    (calls (main piiBackwards ()).events).map (fun r => r.op)
        = [.language, .sentiment, .entities, .keyPhrases, .pii]
      ∧ (calls (main piiBackwards ()).events).map (fun r => (r.op, r.Text))
        ≠ sampleTexts.flatMap sixOperations := by
  decide

/-- C3 (amended): a failure to load the configuration ends the process at once
with a fatal message; once the client is constructed, for every client whose
successful responses carry the fields the program reads, with PII offsets such
that `0 <= begin <= end <= len(text)` (whatever the errors and the other
contents), the process ends normally after the six requests of every sample
text, its last line being the separator of the last text. -/
theorem program_ends_early_only_without_config {κ σ : Type}
    (LoadDefaultConfig : Except GoString κ) (NewFromConfig : κ → Client σ) (s : σ) :
    (∀ err, LoadDefaultConfig = .error err →
        program LoadDefaultConfig NewFromConfig s
          = ([.fatal (utf8 "Failed to load AWS config: " ++ err)], .fatal))
    ∧ (∀ cfg, LoadDefaultConfig = .ok cfg → WellFormed (NewFromConfig cfg) →
        (program LoadDefaultConfig NewFromConfig s).2 = .success
          ∧ (calls (program LoadDefaultConfig NewFromConfig s).1).map (fun r => (r.op, r.Text))
              = sampleTexts.flatMap sixOperations
          ∧ (prints (program LoadDefaultConfig NewFromConfig s).1).getLast? = some separator) := by
  constructor
  · intro err h
    subst h
    rfl
  · intro cfg h hr
    subst h
    obtain ⟨ha, hc⟩ := main_ok (NewFromConfig cfg) hr s
    refine ⟨?_, ?_, ?_⟩
    · simp [program, init, ha]
    · simp only [program, init]
      rw [hc, map_op_text_requestsFor]
    · simp only [program, init]
      exact main_last (NewFromConfig cfg) s ha

/-- C3 (amended) at a client whose key-phrase extraction always fails. -/
theorem program_ends_early_only_without_config_witness :
    (program (Except.ok () : Except GoString Unit) (fun _ => keyPhrasesThrottled) ()).2
        = .success
      ∧ (calls (program (Except.ok () : Except GoString Unit)
            (fun _ => keyPhrasesThrottled) ()).1).map (fun r => (r.op, r.Text))
          = sampleTexts.flatMap sixOperations
      ∧ (prints (program (Except.ok () : Except GoString Unit)
            (fun _ => keyPhrasesThrottled) ()).1).getLast? = some separator :=
  (program_ends_early_only_without_config (Except.ok ()) (fun _ => keyPhrasesThrottled) ()).2
    () rfl keyPhrasesThrottled_wellFormed

set_option maxRecDepth 100000 in
/-- C3 as stated fails: with the configuration loaded, a successful PII
response on the second sample text whose end offset lies beyond the end of the
text makes the process end by a panic, after eleven of the eighteen requests. -/
theorem program_panics_on_offsets_beyond_text :
    (program (Except.ok () : Except GoString Unit) (fun _ => piiBeyondEnd) 0).2 = .panic
      ∧ (calls (program (Except.ok () : Except GoString Unit)
            (fun _ => piiBeyondEnd) 0).1).length = 11 := by
  decide

theorem silent_languagesComplete : LanguagesComplete silent := by
  intro s input result h lang hl
  injection h with h1
  rw [← h1] at hl
  cases hl

theorem failing_languagesComplete
    (client : Client Unit) (err : GoString) :
    LanguagesComplete { client with DetectDominantLanguage := fun s _ => (s, .error err) } := by
  intro s input result h
  cases h

/-- C8 (amended): the request of language detection carries the text and no
language code; the requests of the five other operations carry the same text
and the language code of English (`types.LanguageCodeEn`); and of two runs that
differ only in what language detection answers (the remote service being
otherwise the same), both with answers that carry the code and score of every
language, one issues the same requests as the other. -/
theorem requests_carry_text_and_english {σ : Type} (client : Client σ) (text : GoString)
    (s : σ) :
    calls (detectLanguage client text s).events = [.DetectDominantLanguage { Text := text }]
    ∧ (calls (detectLanguage client text s).events).map Request.LanguageCode = [none]
    ∧ calls (detectSentiment client text s).events
        = [.DetectSentiment { Text := text, LanguageCode := LanguageCodeEn }]
    ∧ calls (detectEntities client text s).events
        = [.DetectEntities { Text := text, LanguageCode := LanguageCodeEn }]
    ∧ calls (detectKeyPhrases client text s).events
        = [.DetectKeyPhrases { Text := text, LanguageCode := LanguageCodeEn }]
    ∧ calls (detectPII client text s).events
        = [.DetectPiiEntities { Text := text, LanguageCode := LanguageCodeEn }]
    ∧ calls (detectSyntax client text s).events
        = [.DetectSyntax { Text := text, LanguageCode := LanguageCodeEn }]
    ∧ (∀ f : σ → DetectDominantLanguageInput
              → σ × Except GoString DetectDominantLanguageOutput,
        (∀ s input, (f s input).1 = (client.DetectDominantLanguage s input).1) →
        LanguagesComplete client →
        LanguagesComplete { client with DetectDominantLanguage := f } →
        calls (main { client with DetectDominantLanguage := f } s).events
          = calls (main client s).events) := by
  refine ⟨?_, ?_, ?_, ?_, ?_, ?_, ?_, ?_⟩
  · rw [calls_eq_map_callLog, detectLanguage_callLog]; rfl
  · rw [calls_eq_map_callLog, detectLanguage_callLog]; rfl
  · rw [calls_eq_map_callLog, detectSentiment_callLog]; rfl
  · rw [calls_eq_map_callLog, detectEntities_callLog]; rfl
  · rw [calls_eq_map_callLog, detectKeyPhrases_callLog]; rfl
  · rw [calls_eq_map_callLog, detectPII_callLog]; rfl
  · rw [calls_eq_map_callLog, detectSyntax_callLog]; rfl
  · intro f hf hc hc2
    exact (main_sameRequests client f hf hc hc2 s).2.2

/-- C8 (amended) at two runs: language detection fails in one and finds
nothing in the other. -/
theorem requests_carry_text_and_english_witness :
    calls (main { silent with
        DetectDominantLanguage := fun s _ => (s, .error (utf8 "TextSizeLimitExceededException")) }
        ()).events
      = calls (main silent ()).events :=
  (requests_carry_text_and_english silent (utf8 "Hola") ()).2.2.2.2.2.2.2
    (fun s _ => (s, .error (utf8 "TextSizeLimitExceededException"))) (fun _ _ => rfl)
    silent_languagesComplete (failing_languagesComplete silent _)

set_option maxRecDepth 100000 in
/-- C8 as stated fails: of two runs that differ only in what language
detection answers, the one whose answer has a language without its score
stops at the first text after the language request and issues none of the
requests of the five other operations, of which the other run issues fifteen. -/
theorem requests_depend_on_language_response :
    calls (main languageWithoutScore ()).events
        = [.DetectDominantLanguage { Text := utf8 "I love this new product! It's absolutely amazing and works perfectly. John Smith from New York called me at 555-123-4567." }]
      ∧ ((calls (main languageWithoutScore ()).events).filter
            (fun r => decide (r.op ≠ .language))).length = 0
      ∧ ((calls (main silent ()).events).filter
            (fun r => decide (r.op ≠ .language))).length = 15 := by
  decide

set_option maxRecDepth 100000 in
/-- C9 as stated fails: in the text "café 42" the characters at positions 5 and
6 are "42", but for a PII entity with offsets 5 and 7 `detectPII` shows " 4",
the bytes at positions 5 and 6 of the UTF-8 text. -/
theorem detectPII_slices_bytes_not_characters :
    (7 : Int) ≤ "café 42".length
      ∧ utf8 ⟨between "café 42".data 5 7⟩ = utf8 "42"
      ∧ prints (detectPII findsDigits (utf8 "café 42") ()).events
          = [utf8 "🔒 PII Detection:\n", utf8 "  AGE: \" 4\" (Confidence: 99.00%)\n", utf8 "\n"]
      ∧ prints (detectPII findsDigits (utf8 "café 42") ()).events
          ≠ [utf8 "🔒 PII Detection:\n", utf8 "  AGE: \"42\" (Confidence: 99.00%)\n", utf8 "\n"] := by
  decide

set_option maxRecDepth 100000 in
/-- C9 (amended): the offsets are positions in the bytes of the text, which
coincide with character positions when the text is ASCII: for every text of
ASCII characters only and every successful PII response whose entities carry
offsets with `0 <= begin <= end <= number of characters`, the substring quoted
on the line of an entity consists of the characters of the text at positions
`begin`, ..., `end - 1`; a line is printed for each entity before the first
one without a score, where the run stops. The three sample texts consist of
ASCII bytes only. -/
theorem detectPII_lines_ascii {σ : Type} (client : Client σ) (text : String) (s : σ)
    (result : DetectPiiEntitiesOutput)
    (hascii : ∀ c ∈ text.data, c.val ≤ 127)
    (h : (client.DetectPiiEntities s { Text := utf8 text, LanguageCode := LanguageCodeEn }).2
      = .ok result)
    (hr : ∀ entity ∈ result.Entities, ∃ lo hi : Int,
      entity.BeginOffset = some lo ∧ entity.EndOffset = some hi
        ∧ 0 ≤ lo ∧ lo ≤ hi ∧ hi ≤ (text.length : Int)) :
    prints (detectPII client (utf8 text) s).events =
        Println (utf8 "🔒 PII Detection:")
          :: (if result.Entities.length = 0 then
                [Println (utf8 "  No PII found"), Println []]
              else
                (result.Entities.takeWhile (fun entity => entity.Score.isSome)).map
                  (fun entity =>
                    utf8 "  " ++ entity.Type_ ++ utf8 ": \""
                      ++ utf8 ⟨between text.data (entity.BeginOffset.getD 0).toNat
                          (entity.EndOffset.getD 0).toNat⟩
                      ++ utf8 "\" (Confidence: " ++ pct (entity.Score.getD .nan) ++ utf8 ")\n")
                ++ (if result.Entities.all (fun entity => entity.Score.isSome) then [Println []]
                    else []))
      ∧ (∀ t ∈ sampleTexts, ∀ b ∈ t, b < 128) := by
  refine ⟨?_, by decide⟩
  have hbytes : utf8 text = text.data.map (fun c => c.val.toUInt8) :=
    utf8_of_ascii text.data hascii
  have hlen : (utf8 text).length = text.length := by
    rw [hbytes, List.length_map]
    rfl
  have hr2 : ∀ entity ∈ result.Entities, entity.InRange (utf8 text) := by
    intro entity he
    obtain ⟨lo, hi, h1, h2, h3, h4, h5⟩ := hr entity he
    exact ⟨lo, hi, h1, h2, h3, h4, by rw [hlen]; exact h5⟩
  have hsub : ∀ lo hi : Nat, between (utf8 text) lo hi = utf8 ⟨between text.data lo hi⟩ := by
    intro lo hi
    rw [utf8_of_ascii (between text.data lo hi)
      (fun c hc => hascii c (between_subset text.data lo hi c hc)), hbytes, between_map]
  obtain ⟨hev, -⟩ := detectPII_events_ok client (utf8 text) s result h hr2
  rw [hev, prints_append, prints_say]
  simp only [slice_eq_between, piiLine, hsub]
  rfl

/-- C9 (amended) at an ASCII text with a number at positions 10 to 21. -/
theorem detectPII_lines_ascii_witness :
    prints (detectPII findsNumber (utf8 "My SSN is 123-45-6789.") ()).events =
      [utf8 "🔒 PII Detection:\n", utf8 "  SSN: \"123-45-6789\" (Confidence: 99.00%)\n",
        utf8 "\n"] :=
  ((detectPII_lines_ascii findsNumber "My SSN is 123-45-6789." () _ (by decide) rfl
    (fun entity he => by
      cases he with
      | head => exact ⟨10, 21, rfl, rfl, by decide, by decide, by decide⟩
      | tail _ h2 => cases h2)).1).trans (by decide)

end Comprehend
